import Mathlib

/-! LSDTopoTools: the chi map merge, the parameter parser and the driver helpers.

A shallow embedding of the parts of `LSDChiTools.cpp`, `LSDParameterParser.cpp`
and `LSDAnalysisDriver.cpp` that the properties below are about, and of the
profile partitioner as the specification describes it.

Conventions of the embedding
* a `std::vector<T>` is a `List T`; reading `v[i]` outside the vector is
  undefined behaviour in C++ and is modelled as the failure `none`;
* a `std::string` is a `List Char`; `size_t` has 64 bits and `unsigned` 32;
* a `std::map<K, T>` is the list of its entries in ascending key order
  (the order in which a C++ iterator visits them);
* `float` and `double` values are only copied or printed by the code modelled
  here, never computed with, so their type is a parameter `F`;
* what is written to `cout` is left out, except the report of a parameter
  that is not expected.
-/

namespace LSDTT

/-! ## `std::map` -/

/-- A `std::map<K, V>`, as the list of its entries in iteration order, which is
the ascending order of the keys. -/
abbrev StdMap (K V : Type) := List (K × V)

namespace StdMap

/-- The lookup `m.find(k)`; `none` stands for `m.end()`. -/
def find {K V : Type} [DecidableEq K] : StdMap K V → K → Option V
  | [], _ => none
  | (k', v) :: rest, k => if k = k' then some v else find rest k

/-- The assignment `m[k] = v`: inserts the key at its place in the ascending
order, or overwrites the value of a key that is already there. -/
def assign {K V : Type} [DecidableEq K] [LT K] [DecidableRel (α := K) (· < ·)] :
    StdMap K V → K → V → StdMap K V
  | [], k, v => [(k, v)]
  | (k', v') :: rest, k, v =>
    if k < k' then (k, v) :: (k', v') :: rest
    else if k = k' then (k, v) :: rest
    else (k', v') :: assign rest k v

/-- The keys of the map in iteration order. -/
def keys {K V : Type} (m : StdMap K V) : List K := m.map Prod.fst

/-- The rvalue read `m[k]`: the stored value, or the value-initialised `0`
when the key is absent. -/
def index {K V : Type} [DecidableEq K] [Zero V] (m : StdMap K V) (k : K) : V :=
  (find m k).getD 0

end StdMap

/-- A `std::map<int, V>`. -/
abbrev IntMap (V : Type) := StdMap Int V

/-- A `std::string`. -/
abbrev Str := List Char

/-! ## `LSDChiTools::chi_map_automator` -/

/-- What one `LSDChiNetwork` hands back after segmentation and Monte Carlo
sampling (lines 406-409): `get_m_means()`, `get_b_means()`, `get_chis()` and
`get_node_indices()`, each a vector with one vector per channel. The vectors
hold entries for nodes of the flow network, which are indexed by `int`, so
their sizes are below `2 ^ 31` and the casts `int(... .size())` of lines 415 and
430 keep their values. -/
structure ChiNetworkData (F : Type) where
  m_means : List (List F)
  b_means : List (List F)
  chis : List (List F)
  node_indices : List (List Int)
deriving DecidableEq, Repr

/-- The three maps of lines 373-375. -/
structure ChiMaps (F : Type) where
  m_means_map : IntMap F
  b_means_map : IntMap F
  chi_coord_map : IntMap F
deriving DecidableEq, Repr

/-- The maps as declared, before the channel loop. -/
def ChiMaps.empty {F : Type} : ChiMaps F := ⟨[], [], []⟩

/-- The body of the node loop (lines 434-448) at index `node`, for the four
vectors `these_chi_m_means`, `these_chi_b_means`, `these_chi_coordinates` and
`these_chi_node_indices`. The three value vectors are read only in the branch
of a node that has not been found. -/
def merge_node {F : Type} (ms bs cs : List F) (ns : List Int)
    (maps : ChiMaps F) (node : Nat) : Option (ChiMaps F) :=
  match ns[node]? with
  | none => none
  | some this_node =>
    if (maps.m_means_map.find this_node).isNone then
      match ms[node]?, bs[node]?, cs[node]? with
      | some m, some b, some c =>
        some ⟨maps.m_means_map.assign this_node m,
              maps.b_means_map.assign this_node b,
              maps.chi_coord_map.assign this_node c⟩
      | _, _, _ => none
    else some maps

/-- The node loop of lines 430-449: `node` runs from `0` to
`these_chi_m_means.size() - 1`. -/
def merge_nodes {F : Type} (ms bs cs : List F) (ns : List Int)
    (maps : ChiMaps F) : Option (ChiMaps F) :=
  (List.range ms.length).foldlM (merge_node ms bs cs ns) maps

/-- One pass of the channel loop from line 406 on: element `[0]` of each of
the four vectors is taken (lines 423-426) whatever `n_channels` is, the test of
line 416 only prints a warning. -/
def merge_channel {F : Type} (maps : ChiMaps F) (c : ChiNetworkData F) :
    Option (ChiMaps F) :=
  match c.m_means[0]?, c.b_means[0]?, c.chis[0]?, c.node_indices[0]? with
  | some ms, some bs, some cs, some ns => merge_nodes ms bs cs ns maps
  | _, _, _, _ => none

/-- The channel loop of lines 388-450 over the results of the channels
`chan = 0, 1, ...`, starting from the empty maps. -/
def chi_map_merge {F : Type} (chans : List (ChiNetworkData F)) : Option (ChiMaps F) :=
  chans.foldlM merge_channel ChiMaps.empty

/-- The four vectors of one extraction are parallel: each holds at least one
channel and the vectors of channel `[0]` have one entry per node. -/
def ChiNetworkData.parallel {F : Type} (c : ChiNetworkData F) : Bool :=
  match c.m_means[0]?, c.b_means[0]?, c.chis[0]?, c.node_indices[0]? with
  | some ms, some bs, some cs, some ns =>
    ms.length == ns.length && bs.length == ns.length && cs.length == ns.length
  | _, _, _, _ => false

/-- The vector `these_chi_node_indices` of line 426: the node ids of channel
`[0]` of an extraction, in the order of the node loop (empty when the
extraction holds no channel). -/
def these_chi_node_indices {F : Type} (c : ChiNetworkData F) : List Int :=
  (c.node_indices[0]?).getD []

/-- The vector `these_chi_m_means` of line 423. -/
def these_chi_m_means {F : Type} (c : ChiNetworkData F) : List F :=
  (c.m_means[0]?).getD []

/-- The vector `these_chi_b_means` of line 424. -/
def these_chi_b_means {F : Type} (c : ChiNetworkData F) : List F :=
  (c.b_means[0]?).getD []

/-- The vector `these_chi_coordinates` of line 425. -/
def these_chi_coordinates {F : Type} (c : ChiNetworkData F) : List F :=
  (c.chis[0]?).getD []

/-- The samples `(node, m_mean, b_mean, chi)` of channel `[0]` in loop order. -/
def ChiNetworkData.samples {F : Type} (c : ChiNetworkData F) : List (Int × F × F × F) :=
  match c.m_means[0]?, c.b_means[0]?, c.chis[0]?, c.node_indices[0]? with
  | some ms, some bs, some cs, some ns => ns.zip (ms.zip (bs.zip cs))
  | _, _, _, _ => []

/-- The effect of the loop body on one sample whose reads are all in range. -/
def absorb_sample {F : Type} (maps : ChiMaps F) (s : Int × F × F × F) : ChiMaps F :=
  if (maps.m_means_map.find s.1).isNone then
    ⟨maps.m_means_map.assign s.1 s.2.1,
     maps.b_means_map.assign s.1 s.2.2.1,
     maps.chi_coord_map.assign s.1 s.2.2.2⟩
  else maps

/-- A list of samples folded into the maps, first to last. -/
def absorb {F : Type} (maps : ChiMaps F) (l : List (Int × F × F × F)) : ChiMaps F :=
  l.foldl absorb_sample maps

/-- What the export loop asks of its collaborators: the row and column of a
node (`FlowInfo.retrieve_current_row_and_col`), the Elevation raster
(`Elevation.get_data_element`), the coordinate conversion
(`get_lat_and_long_locations`), and the text that `operator<<` writes for a
`float` and for a `double`. -/
structure ExportEnv (F D : Type) where
  retrieve_current_row_and_col : Int → Int × Int
  get_data_element : Int → Int → F
  get_lat_and_long_locations : Int → Int → D × D
  show_float : F → List Char
  show_double : D → List Char

/-- The header written at line 348. -/
def chi_header : List Char := "latitude,longitude,chi,elevation,m_chi,b_chi".toList

/-- The line written by lines 457-471 for the key `this_node`. -/
def chi_line {F D : Type} [Zero F] (env : ExportEnv F D) (maps : ChiMaps F) (this_node : Int) :
    List Char :=
  let this_m_mean := maps.m_means_map.index this_node
  let this_b_mean := maps.b_means_map.index this_node
  let this_chi_coord := maps.chi_coord_map.index this_node
  let rc := env.retrieve_current_row_and_col this_node
  let this_elevation := env.get_data_element rc.1 rc.2
  let ll := env.get_lat_and_long_locations rc.1 rc.2
  env.show_double ll.1 ++ [','] ++ env.show_double ll.2 ++ [','] ++
    env.show_float this_chi_coord ++ [','] ++ env.show_float this_elevation ++ [','] ++
    env.show_float this_m_mean ++ [','] ++ env.show_float this_b_mean

/-- The lines of `chi_data_out` (each is ended by `endl`): the header, then the
loop of lines 454-473 over `m_means_map` in iterator order. -/
def chi_data_out {F D : Type} [Zero F] (env : ExportEnv F D) (maps : ChiMaps F) :
    List (List Char) :=
  chi_header :: maps.m_means_map.keys.map (chi_line env maps)

/-- The file written by `chi_map_automator` for the channel results `chans`. -/
def chi_map_automator {F D : Type} [Zero F] (env : ExportEnv F D)
    (chans : List (ChiNetworkData F)) : Option (List (List Char)) :=
  (chi_map_merge chans).map (chi_data_out env)

/-- A channel of 50 nodes for the end-to-end scenario: the trunk nodes `0..9`
followed by the 40 own nodes `lo..lo+39`; `m_mean`, `b_mean` and chi of node
`n` are `2n`, `3n` and `5n`. -/
def trunk_channel (lo : Nat) : ChiNetworkData Int :=
  let ns : List Int :=
    (List.range 10).map Int.ofNat ++ (List.range 40).map (fun i => Int.ofNat (lo + i))
  ⟨[ns.map (fun n => 2 * n)], [ns.map (fun n => 3 * n)], [ns.map (fun n => 5 * n)], [ns]⟩

/-- The trunk of the end-to-end scenario. -/
def trunk_ids : List Int := (List.range 10).map Int.ofNat

/-! ## `LSDAnalysisDriver::get_string_before_dot` -/

/-- The value `std::string::npos`, the largest `size_t` (64 bits). -/
def npos : Nat := 2 ^ 64 - 1

/-- The index of the last occurrence of `c` in `s`, if there is one. -/
def last_index_of : Str → Char → Option Nat
  | [], _ => none
  | a :: rest, c =>
    match last_index_of rest c with
    | some i => some (i + 1)
    | none => if a = c then some 0 else none

/-- The call `s.find_last_of(".")` for a one-character set: the index of the
last occurrence, or `npos`. -/
def find_last_of (s : Str) (c : Char) : Nat :=
  (last_index_of s c).getD npos

/-- The call `s.substr(0, count)`: position `0` is never out of range, and the
result holds `min(count, s.size())` characters. -/
def substr0 (s : Str) (count : Nat) : Str := s.take count

/-- The function of lines 403-409. The result of `find_last_of` is stored in
an `unsigned` (32 bits), which keeps its value modulo `2 ^ 32`. -/
def get_string_before_dot (this_string : Str) : Str :=
  let found := find_last_of this_string '.' % 2 ^ 32
  substr0 this_string found

/-! ## `LSDParameterParser` -/

/-- The ways in which the parser stops without a result. -/
inductive Fault where
  /-- The call `exit(1)` of line 126, after "Buffer overrun". -/
  | buffer_overrun
  /-- The read of `buff[pos-1]` at line 145 with `pos == 0`. -/
  | read_before_buffer
  /-- The exception `std::out_of_range` that `substr` throws for a position past
  the end of the string. -/
  | out_of_range
  /-- The model's bound on the passes of the loop of line 193 was reached. -/
  | out_of_fuel
deriving DecidableEq, Repr

deriving instance DecidableEq for Except

/-- The string literal `"NULL"`. -/
def NULL : Str := "NULL".toList

/-- The string assigned from the character buffer `buff`, which line 147 ends
with a null character at `pos`: the characters before the first null. -/
def c_str (buff : Str) : Str := buff.takeWhile (fun c => c != Char.ofNat 0)

/-- The test `c == ' ' || c == '\t'`. -/
def is_blank (c : Char) : Bool := c == ' ' || c == '\t'

/-- The loop of lines 145-146 on the reversed buffer: blanks are dropped from
the end; the read at `pos == 0` is before the buffer. -/
def strip_rev : Str → Option Str
  | [] => none
  | c :: r => if is_blank c then strip_rev r else some (c :: r)

/-- The loop of lines 145-146: `buff[0..pos)` without its trailing blanks. -/
def strip_trailing (buff : Str) : Option Str :=
  (strip_rev buff.reverse).map List.reverse

/-- The local state of `LSDPP_parse_line`: `buff[0..pos)`, `word`, and the two
strings passed by reference. -/
structure LineState where
  buff : Str
  word : Nat
  parameter : Str
  value : Str
deriving DecidableEq, Repr

/-- The input stream: the characters not yet read and the value of `good()`. -/
structure IfStream where
  rest : Str
  good : Bool
deriving DecidableEq, Repr

/-- The body of the loop of `LSDPP_parse_line` for the character `c`, lines
129-166 (the test of line 120 and the `break` of line 168 are in `parse_loop`). -/
def char_step (c : Char) (s : LineState) : Except Fault LineState :=
  let parameter1 := if c = '#' ∧ s.word = 0 then NULL else s.parameter
  let value1 := if c = '#' ∧ (s.word = 0 ∨ s.word = 1) then NULL else s.value
  let word1 := if c = '#' then 2 else s.word
  if is_blank c ∧ s.buff = [] then
    .ok ⟨s.buff, word1, parameter1, value1⟩
  else if (c = ':' ∧ word1 = 0) ∨ ((c = ' ' ∨ c = '\n' ∨ c = '\t') ∧ word1 = 1) then
    match strip_trailing s.buff with
    | none => .error Fault.read_before_buffer
    | some b =>
      .ok ⟨[], word1 + 1, if word1 = 0 then c_str b else parameter1,
           if word1 = 1 then c_str b else value1⟩
  else if c = '\n' ∧ word1 = 0 then
    .ok ⟨s.buff, word1 + 1, NULL, c_str s.buff⟩
  else if word1 < 2 then
    .ok ⟨s.buff ++ [c], word1, parameter1, value1⟩
  else
    .ok ⟨s.buff, word1, parameter1, value1⟩

/-- Lines 171-175: the strings handed back when the loop has ended. -/
def line_result (s : LineState) : Str × Str :=
  if s.word = 0 then (NULL, NULL) else (s.parameter, s.value)

/-- The loop of lines 118-170 on the characters left in the file. -/
def parse_loop : Str → LineState → Except Fault (Str × Str × IfStream)
  | [], s => .ok ((line_result s).1, (line_result s).2, ⟨[], false⟩)
  | c :: rest, s =>
    if s.buff.length ≥ 1024 then .error Fault.buffer_overrun
    else
      match char_step c s with
      | .error e => .error e
      | .ok s' =>
        if c = '\n' then .ok ((line_result s').1, (line_result s').2, ⟨rest, true⟩)
        else parse_loop rest s'

/-- The function `LSDPP_parse_line`: the new `parameter`, the new `value` and
the stream after the line. -/
def LSDPP_parse_line (infile : Str) (parameter value : Str) :
    Except Fault (Str × Str × IfStream) :=
  parse_loop infile ⟨[], 0, parameter, value⟩

/-- The library and helper functions `ingest_data` calls: `atof` (with the
conversion to `float`), `atoi`, and `RemoveControlCharactersFromEndOfString` of
`LSDStatsTools`. -/
structure ParserEnv (F : Type) where
  atof : Str → F
  atoi : Str → Int
  RemoveControlCharactersFromEndOfString : Str → Str

/-- The data members that `ingest_data` writes, and the parameters that the
last `else` (line 644) reports as not expected. -/
structure ParserState (F : Type) where
  dem_read_extension : Str
  dem_write_extension : Str
  write_path : Str
  write_fname : Str
  read_path : Str
  read_fname : Str
  CHeads_file : Str
  float_parameters : StdMap Str F
  int_parameters : StdMap Str Int
  method_map : StdMap Str Str
  analyses_switches : StdMap Str Bool
  raster_switches : StdMap Str Bool
  boundary_conditions : List Str
  support_file_names : StdMap Str F
  unexpected : List Str
deriving DecidableEq, Repr

/-- Lines 316-327 for component `i`: `bc.substr(i,1)` throws when `i` is past
the end; anything but `p`, `b` or `n` becomes `n`. -/
def boundary_component (bc : Str) (i : Nat) : Except Fault Str :=
  if bc.length < i then .error Fault.out_of_range
  else
    let this_bc := (bc.drop i).take 1
    if this_bc ≠ ['p'] ∧ this_bc ≠ ['b'] ∧ this_bc ≠ ['n'] then .ok ['n'] else .ok this_bc

/-- The loop of lines 314-328. -/
def boundary_vector (bc : Str) : Except Fault (List Str) :=
  match boundary_component bc 0, boundary_component bc 1, boundary_component bc 2,
    boundary_component bc 3 with
  | .ok a, .ok b, .ok c, .ok d => .ok [a, b, c, d]
  | .error e, _, _, _ => .error e
  | _, .error e, _, _ => .error e
  | _, _, .error e, _ => .error e
  | _, _, _, .error e => .error e

/-- The chain of tests of lines 209-648 on the lower-cased parameter name;
`value` is the string handed back by `LSDPP_parse_line`, from which line 207
and each branch remove control characters. -/
def dispatch {F : Type} (env : ParserEnv F) (lower parameter value : Str)
    (st : ParserState F) : Except Fault (ParserState F) :=
  let rc := env.RemoveControlCharactersFromEndOfString
  if lower = "dem read extension".toList then
    .ok { st with dem_read_extension := rc (rc value) }
  else if lower = "dem write extension".toList then
    .ok { st with dem_write_extension := rc (rc value) }
  else if lower = "write path".toList then
    .ok { st with write_path := rc (rc value) }
  else if lower = "write fname".toList then
    .ok { st with write_fname := rc (rc value) }
  else if lower = "read path".toList then
    .ok { st with read_path := rc (rc value) }
  else if lower = "read fname".toList then
    .ok { st with read_fname := rc (rc value) }
  else if lower = "channel heads fname".toList then
    .ok { st with CHeads_file := rc (rc value) }
  else if lower = "min_slope_for_fill".toList then
    .ok { st with float_parameters := st.float_parameters.assign "min_slope_for_fill".toList (env.atof (rc value)) }
  else if lower = "fill_method".toList then
    .ok { st with method_map := st.method_map.assign "fill_method".toList (rc (rc value)) }
  else if lower = "hs_altitude".toList then
    .ok { st with float_parameters := st.float_parameters.assign "hs_altitude".toList (env.atof (rc value)) }
  else if lower = "hs_azimuth".toList then
    .ok { st with float_parameters := st.float_parameters.assign "hs_azimuth".toList (env.atof (rc value)) }
  else if lower = "hs_z_factor".toList then
    .ok { st with float_parameters := st.float_parameters.assign "hs_z_factor".toList (env.atof (rc value)) }
  else if lower = "hs_use_fill".toList then
    .ok { st with analyses_switches := st.analyses_switches.assign "hs_use_fill".toList (decide (rc value = "true".toList)) }
  else if lower = "boundary conditions".toList then
    match boundary_vector ((rc value).map Char.toLower) with
    | .error e => .error e
    | .ok temp_bc => .ok { st with boundary_conditions := temp_bc }
  else if lower = "nodeindex fname for chi map".toList then
    .ok { st with support_file_names := st.support_file_names.assign "nodeindex_fname_for_chi_map".toList (env.atof (rc value)) }
  else if lower = "a_0".toList then
    .ok { st with float_parameters := st.float_parameters.assign "A_0".toList (env.atof (rc value)) }
  else if lower = "m_over_n".toList then
    .ok { st with float_parameters := st.float_parameters.assign "m_over_n".toList (env.atof (rc value)) }
  else if lower = "threshold_area_for_chi".toList then
    .ok { st with float_parameters := st.float_parameters.assign "threshold_area_for_chi".toList (env.atof (rc value)) }
  else if lower = "threshold_pixels_for_chi".toList then
    .ok { st with int_parameters := st.int_parameters.assign "threshold_pixels_for_chi".toList (env.atoi (rc value)) }
  else if lower = "n_iterations".toList then
    .ok { st with int_parameters := st.int_parameters.assign "n_iterations".toList (env.atoi (rc value)) }
  else if lower = "skip".toList then
    .ok { st with int_parameters := st.int_parameters.assign "skip".toList (env.atoi (rc value)) }
  else if lower = "minimum_segment_length".toList then
    .ok { st with int_parameters := st.int_parameters.assign "minimum_segment_length".toList (env.atoi (rc value)) }
  else if lower = "target_nodes".toList then
    .ok { st with int_parameters := st.int_parameters.assign "target_nodes".toList (env.atoi (rc value)) }
  else if lower = "sigma".toList then
    .ok { st with float_parameters := st.float_parameters.assign "sigma".toList (env.atof (rc value)) }
  else if lower = "polyfit_window_radius".toList then
    .ok { st with float_parameters := st.float_parameters.assign "polyfit_window_radius".toList (env.atof (rc value)) }
  else if lower = "slope_method".toList then
    .ok { st with method_map := st.method_map.assign "slope_method".toList (rc (rc value)) }
  else if lower = "drainage_area_method".toList then
    .ok { st with method_map := st.method_map.assign "drainage_area_method".toList (rc (rc value)) }
  else if lower = "single_thread_channel_method".toList then
    .ok { st with method_map := st.method_map.assign "single_thread_channel_method".toList (rc (rc value)) }
  else if lower = "pixel_threshold_for_channel_net".toList then
    .ok { st with float_parameters := st.float_parameters.assign "pixel_threshold_for_channel_net".toList (env.atof (rc value)) }
  else if lower = "root_cohesion".toList then
    .ok { st with float_parameters := st.float_parameters.assign "root_cohesion".toList (env.atof (rc value)) }
  else if lower = "soil_density".toList then
    .ok { st with float_parameters := st.float_parameters.assign "soil_density".toList (env.atof (rc value)) }
  else if lower = "hydraulic_conductivity".toList then
    .ok { st with float_parameters := st.float_parameters.assign "hydraulic_conductivity".toList (env.atof (rc value)) }
  else if lower = "soil_thickness".toList then
    .ok { st with float_parameters := st.float_parameters.assign "soil_thickness".toList (env.atof (rc value)) }
  else if lower = "tan_phi".toList then
    .ok { st with float_parameters := st.float_parameters.assign "tan_phi".toList (env.atof (rc value)) }
  else if lower = "nodata_hole_filling_window_width".toList then
    .ok { st with float_parameters := st.float_parameters.assign "nodata_hole_filling_window_width".toList (env.atof (rc value)) }
  else if lower = "curvature_mask_threshold".toList then
    .ok { st with float_parameters := st.float_parameters.assign "curvature_mask_threshold".toList (env.atof (rc value)) }
  else if lower = "curvature_mask_nodataisbelowthreshold".toList then
    .ok { st with int_parameters := st.int_parameters.assign "curvature_mask_nodataisbelowthreshold".toList (env.atoi (rc value)) }
  else if lower = "mask_threshold".toList then
    .ok { st with float_parameters := st.float_parameters.assign "mask_threshold".toList (env.atof (rc value)) }
  else if lower = "mask_nodataisbelowthreshold".toList then
    .ok { st with int_parameters := st.int_parameters.assign "mask_nodataisbelowthreshold".toList (env.atoi (rc value)) }
  else if lower = "write fill".toList then
    let temp_bool := decide (rc value = "true".toList)
    .ok { st with
      analyses_switches := st.analyses_switches.assign "write_fill".toList temp_bool
      raster_switches := ((st.raster_switches).assign "need_base_raster".toList temp_bool).assign "need_fill".toList temp_bool }
  else if lower = "write trimmed and nodata filled".toList then
    let temp_bool := decide (rc value = "true".toList)
    .ok { st with
      analyses_switches := st.analyses_switches.assign "write_trim_ndfill".toList temp_bool
      raster_switches := ((st.raster_switches).assign "need_base_raster".toList temp_bool).assign "need_trimmed_hole_filled".toList temp_bool }
  else if lower = "write hillshade".toList then
    let temp_bool := decide (rc value = "true".toList)
    .ok { st with
      analyses_switches := st.analyses_switches.assign "write_hillshade".toList temp_bool
      raster_switches := ((st.raster_switches).assign "need_base_raster".toList temp_bool).assign "need_hillshade".toList temp_bool }
  else if lower = "write mask threshold".toList then
    let temp_bool := decide (rc value = "true".toList)
    .ok { st with
      analyses_switches := st.analyses_switches.assign "write_mask_threshold".toList temp_bool
      raster_switches := ((st.raster_switches).assign "need_base_raster".toList temp_bool).assign "need_mask_threshold".toList temp_bool }
  else if lower = "write slope".toList then
    let temp_bool := decide (rc value = "true".toList)
    .ok { st with
      analyses_switches := st.analyses_switches.assign "write_slope".toList temp_bool
      raster_switches := (((st.raster_switches).assign "need_base_raster".toList temp_bool).assign "need_fill".toList temp_bool).assign "need_slope".toList temp_bool }
  else if lower = "write curvature".toList then
    let temp_bool := decide (rc value = "true".toList)
    .ok { st with
      analyses_switches := st.analyses_switches.assign "write_curvature".toList temp_bool
      raster_switches := ((st.raster_switches).assign "need_base_raster".toList temp_bool).assign "need_curvature".toList temp_bool }
  else if lower = "write curvature mask threshold".toList then
    let temp_bool := decide (rc value = "true".toList)
    .ok { st with
      analyses_switches := st.analyses_switches.assign "write_curvature_mask_threshold".toList temp_bool
      raster_switches := (((st.raster_switches).assign "need_base_raster".toList temp_bool).assign "need_curvature".toList temp_bool).assign "need_curvature_mask_threshold".toList temp_bool }
  else if lower = "write planform curvature".toList then
    let temp_bool := decide (rc value = "true".toList)
    .ok { st with
      analyses_switches := st.analyses_switches.assign "write_planform_curvature".toList temp_bool
      raster_switches := ((st.raster_switches).assign "need_base_raster".toList temp_bool).assign "need_planform_curvature".toList temp_bool }
  else if lower = "write tangential curvature".toList then
    let temp_bool := decide (rc value = "true".toList)
    .ok { st with
      analyses_switches := st.analyses_switches.assign "write_tangential_curvature".toList temp_bool
      raster_switches := ((st.raster_switches).assign "need_base_raster".toList temp_bool).assign "need_tangential_curvature".toList temp_bool }
  else if lower = "write profile curvature".toList then
    let temp_bool := decide (rc value = "true".toList)
    .ok { st with
      analyses_switches := st.analyses_switches.assign "write_profile_curvature".toList temp_bool
      raster_switches := ((st.raster_switches).assign "need_base_raster".toList temp_bool).assign "need_profile_curvature".toList temp_bool }
  else if lower = "write aspect".toList then
    let temp_bool := decide (rc value = "true".toList)
    .ok { st with
      analyses_switches := st.analyses_switches.assign "write_aspect".toList temp_bool
      raster_switches := ((st.raster_switches).assign "need_base_raster".toList temp_bool).assign "need_aspect".toList temp_bool }
  else if lower = "write topographic classification".toList then
    let temp_bool := decide (rc value = "true".toList)
    .ok { st with
      analyses_switches := st.analyses_switches.assign "write_topographic_classification".toList temp_bool
      raster_switches := ((st.raster_switches).assign "need_base_raster".toList temp_bool).assign "need_topographic_classification".toList temp_bool }
  else if lower = "write drainage area".toList then
    let temp_bool := decide (rc value = "true".toList)
    .ok { st with
      analyses_switches := st.analyses_switches.assign "write_drainage_area".toList temp_bool
      raster_switches := (((st.raster_switches).assign "need_base_raster".toList temp_bool).assign "need_fill".toList temp_bool).assign "need_drainage_area".toList temp_bool }
  else if lower = "write channel net".toList then
    let temp_bool := decide (rc value = "true".toList)
    .ok { st with
      analyses_switches := st.analyses_switches.assign "write_channel_net".toList temp_bool
      raster_switches := ((((((((st.raster_switches).assign "need_base_raster".toList temp_bool).assign "need_fill".toList temp_bool).assign "need_flowinfo".toList temp_bool).assign "need_ContributingPixels".toList temp_bool).assign "need_JunctionNetwork".toList temp_bool).assign "need_sources".toList temp_bool).assign "need_SOArray".toList temp_bool).assign "need_JunctionIndex".toList temp_bool }
  else if lower = "write nodeindex".toList then
    let temp_bool := decide (rc value = "true".toList)
    .ok { st with
      analyses_switches := st.analyses_switches.assign "write_nodeindex".toList temp_bool
      raster_switches := ((((st.raster_switches).assign "need_base_raster".toList temp_bool).assign "need_fill".toList temp_bool).assign "need_flowinfo".toList temp_bool).assign "need_nodeindex".toList temp_bool }
  else if lower = "write single thread channel".toList then
    let temp_bool := decide (rc value = "true".toList)
    .ok { st with
      analyses_switches := st.analyses_switches.assign "write_single_thread_channel".toList temp_bool
      raster_switches := (((((st.raster_switches).assign "need_base_raster".toList temp_bool).assign "need_fill".toList temp_bool).assign "need_flowinfo".toList temp_bool).assign "need_flow_distance".toList temp_bool).assign "need_drainage_area".toList temp_bool }
  else if lower = "write chi map".toList then
    let temp_bool := decide (rc value = "true".toList)
    .ok { st with
      analyses_switches := st.analyses_switches.assign "write_chi_map".toList temp_bool
      raster_switches := ((((st.raster_switches).assign "need_base_raster".toList temp_bool).assign "need_fill".toList temp_bool).assign "need_flowinfo".toList temp_bool).assign "need_chi_map".toList temp_bool }
  else if lower = "write factor of safety at saturation".toList then
    let temp_bool := decide (rc value = "true".toList)
    .ok { st with
      analyses_switches := st.analyses_switches.assign "write_FS_sat".toList temp_bool
      raster_switches := (((((st.raster_switches).assign "need_base_raster".toList temp_bool).assign "need_fill".toList temp_bool).assign "need_slope".toList temp_bool).assign "need_slope_angle".toList temp_bool).assign "need_FS_sat".toList temp_bool }
  else
    .ok { st with unexpected := st.unexpected ++ [parameter] }

/-- The state of the loop of `ingest_data`: the stream, the strings `parameter`
and `value` (declared outside the loop) and the data members. -/
structure IngestState (F : Type) where
  infile : IfStream
  parameter : Str
  value : Str
  parser : ParserState F
deriving DecidableEq, Repr

/-- One pass of the loop body, lines 195-650. -/
def ingest_pass {F : Type} (env : ParserEnv F) (s : IngestState F) :
    Except Fault (IngestState F) :=
  match LSDPP_parse_line s.infile.rest s.parameter s.value with
  | .error e => .error e
  | .ok (parameter, value, infile) =>
    if parameter = NULL then .ok ⟨infile, parameter, value, s.parser⟩
    else
      let lower := parameter.map Char.toLower
      let value' := env.RemoveControlCharactersFromEndOfString value
      match dispatch env lower parameter value s.parser with
      | .error e => .error e
      | .ok st => .ok ⟨infile, parameter, value', st⟩

/-- The loop `while (infile.good())` of line 193, for at most `fuel` passes. -/
def ingest_loop {F : Type} (env : ParserEnv F) : Nat → IngestState F →
    Except Fault (ParserState F)
  | 0, _ => .error Fault.out_of_fuel
  | fuel + 1, s =>
    if s.infile.good then
      match ingest_pass env s with
      | .error e => .error e
      | .ok s' => ingest_loop env fuel s'
    else .ok s.parser

/-- The function `ingest_data` on a file that opens, with the contents `file`,
from the data members `st`. Every pass but the last reads a character, so
`file.length + 2` passes are enough. -/
def ingest_data {F : Type} (env : ParserEnv F) (file : Str) (st : ParserState F) :
    Except Fault (ParserState F) :=
  ingest_loop env (file.length + 2) ⟨⟨file, true⟩, [], [], st⟩

/-- The data members before anything is read: empty strings and maps. -/
def ParserState.init {F : Type} : ParserState F :=
  ⟨[], [], [], [], [], [], [], [], [], [], [], [], [], [], []⟩

/-- An environment for examples: `atof` hands back the text it is given, `atoi`
reads leading decimal digits, and no control character is removed. -/
def example_parser_env : ParserEnv Str :=
  ⟨fun s => s,
   fun s => (s.takeWhile Char.isDigit).foldl (fun n c => 10 * n + (Int.ofNat c.toNat - 48)) 0,
   fun s => s⟩

/-- The two maps a numeric option can go to. -/
inductive ParamKind where
  | int_parameter
  | float_parameter
deriving DecidableEq, Repr

/-- The seven options of the chi segment fitting with the key each is stored
under and the map that holds it. -/
def segmentation_options : List (String × ParamKind) :=
  [("A_0", ParamKind.float_parameter), ("m_over_n", ParamKind.float_parameter),
   ("n_iterations", ParamKind.int_parameter), ("skip", ParamKind.int_parameter),
   ("minimum_segment_length", ParamKind.int_parameter),
   ("target_nodes", ParamKind.int_parameter), ("sigma", ParamKind.float_parameter)]

/-- The characters that end or void a word in `LSDPP_parse_line`, and the null
character that ends a C string. -/
def is_separator (c : Char) : Bool :=
  c == ' ' || c == '\t' || c == '\n' || c == '#' || c == Char.ofNat 0

/-- The text of a number as it stands in a parameter file: at least one
character, none of them a blank, a newline, `#` or the null character. -/
def is_number_text (num : Str) : Bool :=
  !num.isEmpty && num.all (fun c => !is_separator c)

/-- The data members after the number `num` has been stored under `key` in the
map of its kind: `atof` or `atoi` of the text, after the removal of control
characters of line 207. Nothing else is changed. -/
def store_option {F : Type} (env : ParserEnv F) (st : ParserState F) (key : Str)
    (kind : ParamKind) (num : Str) : ParserState F :=
  match kind with
  | ParamKind.float_parameter =>
    { st with
      float_parameters :=
        StdMap.assign st.float_parameters key
          (env.atof (env.RemoveControlCharactersFromEndOfString num)) }
  | ParamKind.int_parameter =>
    { st with
      int_parameters :=
        StdMap.assign st.int_parameters key
          (env.atoi (env.RemoveControlCharactersFromEndOfString num)) }

/-- A character that is stored in the buffer while word `w` is read. -/
def plain_for (w : Nat) (c : Char) : Prop :=
  c ≠ '#' ∧ c ≠ ' ' ∧ c ≠ '\t' ∧ c ≠ '\n' ∧ (w = 0 → c ≠ ':')

/-! ## `LSDAnalysisDriver`: paths and extensions -/

/-- The call `s.substr(pos, 1)` with `pos` computed as `s.length() - 2` in
`size_t` (64 bits, wrapping below zero): `std::out_of_range` is thrown when
`pos > s.size()`. -/
def substr_before_last (s : Str) : Except Fault Str :=
  let pos := (s.length + 2 ^ 64 - 2) % 2 ^ 64
  if s.length < pos then .error Fault.out_of_range
  else .ok ((s.drop pos).take 1)

/-- The function of lines 290-302 on the data member `pathname`: the new
`pathname`, or the exception thrown by `substr`. -/
def check_pathname_for_slash (pathname : Str) : Except Fault Str :=
  match substr_before_last pathname with
  | .error e => .error e
  | .ok lchar =>
    let slash := ['/']
    if lchar ≠ slash then .ok (pathname ++ slash) else .ok pathname

/-- The data members of `LSDAnalysisDriver` that hold paths, file names and
extensions. -/
structure DriverFiles where
  pathname : Str
  param_fname : Str
  dem_read_extension : Str
  dem_write_extension : Str
  write_path : Str
  write_fname : Str
  read_path : Str
  read_fname : Str
deriving DecidableEq, Repr

/-- Lines 337-356: the check of the two extensions. -/
def check_extensions (d : DriverFiles) : DriverFiles :=
  if d.dem_read_extension ≠ "asc".toList ∧ d.dem_read_extension ≠ "flt".toList ∧
      d.dem_write_extension ≠ "asc".toList ∧ d.dem_write_extension ≠ "flt".toList then
    { d with dem_read_extension := "flt".toList, dem_write_extension := "flt".toList }
  else if d.dem_read_extension ≠ "asc".toList ∧ d.dem_read_extension ≠ "flt".toList then
    { d with dem_read_extension := d.dem_write_extension }
  else
    { d with dem_write_extension := d.dem_read_extension }

/-- Lines 360-367: the default of `write_path`. -/
def check_write_path (d : DriverFiles) : DriverFiles :=
  if d.write_path.length = 0 then
    let d1 := { d with write_path := d.pathname }
    if d1.read_path.length ≠ 0 then { d1 with write_path := d1.read_path } else d1
  else d

/-- Lines 368-377: the default of `write_fname`; the assignment of line 374
follows that of line 372 without an `else`. -/
def check_write_fname (d : DriverFiles) : DriverFiles :=
  if d.write_fname.length = 0 then
    let d1 := if d.read_fname.length ≠ 0 then { d with write_fname := d.read_fname } else d
    { d1 with write_fname := get_string_before_dot d1.param_fname }
  else d

/-- Lines 381-384: the default of `read_path`. -/
def check_read_path (d : DriverFiles) : DriverFiles :=
  if d.read_path.length = 0 then { d with read_path := d.write_path } else d

/-- Lines 385-390: the default of `read_fname`. -/
def check_read_fname (d : DriverFiles) : DriverFiles :=
  if d.read_fname.length = 0 then
    { d with read_fname := get_string_before_dot d.param_fname }
  else d

/-- The function `check_file_extensions_and_paths` of lines 333-397. -/
def check_file_extensions_and_paths (d : DriverFiles) : DriverFiles :=
  check_read_fname (check_read_path (check_write_fname (check_write_path (check_extensions d))))

/-- Driver data for examples: `pathname` is `data/`, the parameter file is
`run.param`, and the two paths are as given. -/
def example_files (write_path read_path : String) : DriverFiles :=
  ⟨"data/".toList, "run.param".toList, "flt".toList, "flt".toList, write_path.toList, [],
   read_path.toList, []⟩

/-! ## `LSDParameterParser::set_float_parameters` and `set_int_parameters` -/

/-- The helper `extract_keys` of `LSDStatsTools`: the keys of a map, which the
two functions below only print. -/
def extract_keys {V : Type} (m : StdMap Str V) : List Str := m.keys

/-- The function of lines 664-682: the keys of the default map are taken and
printed, then the local map `these_float_parameters`, declared empty at line
677, is returned as it is. The data members are not consulted. -/
def set_float_parameters {F : Type} (_st : ParserState F) (float_default_map : StdMap Str F) :
    StdMap Str F :=
  let _these_keys := extract_keys float_default_map
  let these_float_parameters : StdMap Str F := []
  these_float_parameters

/-- The function of lines 684-700, the same with `int` values. -/
def set_int_parameters {F : Type} (_st : ParserState F) (int_default_map : StdMap Str Int) :
    StdMap Str Int :=
  let _these_keys := extract_keys int_default_map
  let these_int_parameters : StdMap Str Int := []
  these_int_parameters

/-- The map the comments of lines 661-667 describe: the keys of the default
map, each with the value read from the parameter file when there is one and
with the default otherwise. -/
def resolved_parameters {V : Type} (read : StdMap Str V) (default_map : StdMap Str V) :
    StdMap Str V :=
  default_map.map (fun kv => (kv.1, (read.find kv.1).getD kv.2))

/-! ## `LSDAnalysisDriver::run_analyses` -/

/-- The raster library as `run_analyses` uses it: the constructor
`LSDRaster(name, extension)` that reads a file, the method `fill`, the test
`min_slope_for_fill < 1e-6 || min_slope_for_fill > 1` of line 261 and the value
`0.0001` of line 263. -/
structure RasterEnv (R F : Type) where
  LSDRaster : Str → Str → R
  fill : R → F → R
  slope_not_set : F → Bool
  default_min_slope : F

/-- The calls made to the raster library. -/
inductive RasterEvent where
  | read_base
  | compute_fill
deriving DecidableEq, Repr

/-- The data members `run_analyses` works on, with the calls made so far to
the raster library. -/
structure DriverRasters (R F : Type) where
  raster_switches : StdMap Str Bool
  raster_indices : StdMap Str Int
  vector_of_LSDRasters : List R
  min_slope_for_fill : F
  read_path : Str
  read_fname : Str
  dem_read_extension : Str
  events : List RasterEvent
deriving DecidableEq, Repr

/-- The function `read_base_raster` of lines 234-245. -/
def read_base_raster {R F : Type} (env : RasterEnv R F) (d : DriverRasters R F) :
    DriverRasters R F :=
  let full_raster_name := d.read_path ++ d.read_fname
  let BaseRaster := env.LSDRaster full_raster_name d.dem_read_extension
  let base_raster_index : Int := Int.ofNat d.vector_of_LSDRasters.length
  { d with
    vector_of_LSDRasters := d.vector_of_LSDRasters ++ [BaseRaster]
    raster_indices := d.raster_indices.assign "base_raster".toList base_raster_index
    events := d.events ++ [RasterEvent.read_base] }

/-- The function `fill_raster` of lines 251-283; `none` when the index stored
for the base raster is outside `vector_of_LSDRasters`. -/
def fill_raster {R F : Type} (env : RasterEnv R F) (d : DriverRasters R F) :
    Option (DriverRasters R F) :=
  let d1 := if (d.raster_indices.find "base_raster".toList).isNone then read_base_raster env d
    else d
  let d2 := if env.slope_not_set d1.min_slope_for_fill then
      { d1 with min_slope_for_fill := env.default_min_slope }
    else d1
  if (d2.raster_indices.find "fill".toList).isNone then
    let base_raster_index := d2.raster_indices.index "base_raster".toList
    if base_raster_index < 0 then none
    else
      match d2.vector_of_LSDRasters[base_raster_index.toNat]? with
      | none => none
      | some base =>
        let temp_fill := env.fill base d2.min_slope_for_fill
        let fill_raster_index : Int := Int.ofNat d2.vector_of_LSDRasters.length
        some { d2 with
          vector_of_LSDRasters := d2.vector_of_LSDRasters ++ [temp_fill]
          raster_indices := d2.raster_indices.assign "fill".toList fill_raster_index
          events := d2.events ++ [RasterEvent.compute_fill] }
  else some d2

/-- The function `run_analyses` of lines 199-228. Both tests compare
`raster_switches.find(...)` with `raster_switches.end()`: a branch is taken
when the key is not in the map. -/
def run_analyses {R F : Type} (env : RasterEnv R F) (d : DriverRasters R F) :
    Option (DriverRasters R F) :=
  let d1 := if (d.raster_switches.find "need_base_raster".toList).isNone then
      read_base_raster env d
    else d
  if (d1.raster_switches.find "need_fill".toList).isNone then
    if (d1.raster_indices.find "base_raster".toList).isNone then
      fill_raster env (read_base_raster env d1)
    else fill_raster env d1
  else some d1

/-- A raster library for examples: a raster is the text of its file name, the
filled raster has `_fill` added, and the minimum slope is an integer that is
not set when it is `0`. -/
def example_raster_env : RasterEnv Str Int :=
  ⟨fun name ext => name ++ ['.'] ++ ext, fun r _ => r ++ "_fill".toList,
   fun x => decide (x = 0), 1⟩

/-- Driver data for examples: no raster yet, the file `data/dem.flt`, and the
given switches. -/
def example_rasters (switches : StdMap Str Bool) : DriverRasters Str Int :=
  ⟨switches, [], [], 0, "data/".toList, "dem".toList, "flt".toList, []⟩

/-! ## `LSDSoilHydroRaster::Calculate_r` -/

/-- The array `r` built by lines 480-490, as a function of the cell: every cell
starts as `NoDataValue` (line 480), and the pass of the two loops with the
indices `i`, `j` of an interior cell (`1 ≤ i < NRows - 1`, `1 ≤ j < NCols - 1`)
whose value is not `NoDataValue` writes `rhoW / RasterData[i][j]` into it. The
division is that of the number type `F`. -/
def Calculate_r {F : Type} [Div F] [DecidableEq F] (NRows NCols : Int) (NoDataValue : F)
    (RasterData : Int → Int → F) (rhoW : F) : Int → Int → F :=
  fun i j =>
    if 1 ≤ i ∧ i < NRows - 1 ∧ 1 ≤ j ∧ j < NCols - 1 then
      if RasterData i j ≠ NoDataValue then rhoW / RasterData i j else NoDataValue
    else NoDataValue

/-! ## `child_drainage_density` -/

/-- The line written by line 172 of `child_drainage_density.cpp` (ended by
`endl`), from the mean hilltop curvature of line 171, the drainage density of
line 127 and the value `uprate` read from the header file at line 98; the texts
that `operator<<` writes for a `float` and an `int` are parameters. -/
def child_output_line {F : Type} (show_float : F → Str) (show_int : Int → Str)
    (mean_cht drainage_density : F) (uprate : Int) : Str :=
  show_float mean_cht ++ [' '] ++ show_float drainage_density ++ [' '] ++ show_int uprate

/-- The line appended by a run of `main`, lines 65-174: nothing is written
when the number of arguments is not 3 (line 68) or the header file does not
open (line 83); otherwise the line above. -/
def child_drainage_density_main {F : Type} (show_float : F → Str) (show_int : Int → Str)
    (nNumberofArgs : Int) (header_opens : Bool) (mean_cht drainage_density : F)
    (uprate : Int) : Option Str :=
  if nNumberofArgs ≠ 3 then none
  else if header_opens = false then none
  else some (child_output_line show_float show_int mean_cht drainage_density uprate)

/-! ## The profile partitioner -/

/-- Modelled from the spec: the result of `ProfilePartitioner` (section 4.2),
whose code (`LSDChiNetwork`, called at lines 393-402 of `LSDChiTools.cpp`) is
not among the sources. A partition is the list of its segments `[i, j)` over
the node indices of the profile, with the flag of the degenerate result. -/
structure Partition where
  segments : List (Nat × Nat)
  degenerate : Bool
deriving DecidableEq, Repr

/-- Modelled from the spec: one candidate breakpoint `i` for the entry `best[j]`
of the dynamic programme of section 4.2, which is the least `best[i] + cost i j`
over the breakpoints `i < j` with `j - i ≥ min_segment_length` for which
`best[i]` exists, together with the parent pointer `i`; `acc` is the best
candidate so far. The type `S` of the scores, the score `cost i j` of a
segment (its residual over `sigma²` plus the penalty `λ`) and the tie-break
`tie j i i'` (whether `i` is preferred to the incumbent `i'` at equal score) are
parameters. -/
def consider {S : Type} [Add S] [LT S] [DecidableRel (α := S) (· < ·)] [DecidableEq S]
    (cost : Nat → Nat → S) (tie : Nat → Nat → Nat → Bool) (min_segment_length : Nat)
    (best : List (Option (S × Nat))) (j : Nat) (acc : Option (S × Nat)) (i : Nat) :
    Option (S × Nat) :=
  if min_segment_length ≤ j - i then
    match best[i]? with
    | some (some (s, _)) =>
      match acc with
      | none => some (s + cost i j, i)
      | some (sb, ib) =>
        if s + cost i j < sb ∨ (s + cost i j = sb ∧ tie j i ib = true) then
          some (s + cost i j, i)
        else some (sb, ib)
    | _ => acc
  else acc

/-- Modelled from the spec: `best[j]`, the candidates `i = 0, ..., j - 1` taken
in turn. -/
def best_entry {S : Type} [Add S] [LT S] [DecidableRel (α := S) (· < ·)] [DecidableEq S]
    (cost : Nat → Nat → S) (tie : Nat → Nat → Nat → Bool) (min_segment_length : Nat)
    (best : List (Option (S × Nat))) (j : Nat) : Option (S × Nat) :=
  (List.range j).foldl (consider cost tie min_segment_length best j) none

/-- Modelled from the spec: the table `best[0..n]` of section 4.2, with
`best[0] = 0`. -/
def dp_table {S : Type} [Zero S] [Add S] [LT S] [DecidableRel (α := S) (· < ·)] [DecidableEq S]
    (cost : Nat → Nat → S) (tie : Nat → Nat → Nat → Bool) (min_segment_length : Nat) :
    Nat → List (Option (S × Nat))
  | 0 => [some (0, 0)]
  | n + 1 =>
    dp_table cost tie min_segment_length n ++
      [best_entry cost tie min_segment_length (dp_table cost tie min_segment_length n) (n + 1)]

/-- Modelled from the spec: the reconstruction of section 4.2 by following the
parent pointers from `j` down to `0`, in at most `fuel` steps. -/
def backtrack {S : Type} (best : List (Option (S × Nat))) : Nat → Nat → List (Nat × Nat)
  | 0, _ => []
  | fuel + 1, j =>
    if j = 0 then []
    else
      match best[j]? with
      | some (some (_, i)) => backtrack best fuel i ++ [(i, j)]
      | _ => []

/-- Modelled from the spec: `ProfilePartitioner.partition` of section 4.2 on a
profile of `n` nodes. When no valid partition exists (the profile is shorter
than `min_segment_length`) the result is the single segment spanning the
profile, flagged degenerate. -/
def partition {S : Type} [Zero S] [Add S] [LT S] [DecidableRel (α := S) (· < ·)] [DecidableEq S]
    (cost : Nat → Nat → S) (tie : Nat → Nat → Nat → Bool) (min_segment_length n : Nat) :
    Partition :=
  if n < min_segment_length then ⟨[(0, n)], true⟩
  else
    match (dp_table cost tie min_segment_length n)[n]? with
    | some (some _) => ⟨backtrack (dp_table cost tie min_segment_length n) n n, false⟩
    | _ => ⟨[(0, n)], true⟩

/-- The segments run from node `a` to node `b` without gap or overlap, each
`[i, j)` with `i < j`. -/
def covers : Nat → Nat → List (Nat × Nat) → Prop
  | a, b, [] => a = b
  | a, b, seg :: rest => seg.1 = a ∧ seg.1 < seg.2 ∧ covers seg.2 b rest

/-- Every parent pointer of the table lies at least `min_segment_length` below
its entry, at an entry that exists. -/
def TableInv {S : Type} (min_segment_length : Nat) (best : List (Option (S × Nat))) : Prop :=
  ∀ j s p, j ≠ 0 → best[j]? = some (some (s, p)) →
    p < j ∧ min_segment_length ≤ j - p ∧ ∃ e, best[p]? = some (some e)

/-- A score for examples: the squared length of the segment, plus one. -/
def example_cost (i j : Nat) : Int := ((j : Int) - i) * ((j : Int) - i) + 1

/-- A tie-break for examples: the later breakpoint is preferred. -/
def example_tie (_ i i' : Nat) : Bool := decide (i' < i)

/-- The three maps hold the same keys in the same order. -/
def Aligned {F : Type} (maps : ChiMaps F) : Prop :=
  maps.b_means_map.keys = maps.m_means_map.keys ∧
  maps.chi_coord_map.keys = maps.m_means_map.keys

/-- The first sample of a list that carries node `n`. -/
def first_sample {F : Type} (l : List (Int × F × F × F)) (n : Int) : Option (Int × F × F × F) :=
  l.find? (fun s => decide (s.1 = n))

/-- Every node the node loop would visit in channel `c` is in range and is
already a key of `m_means_map`. -/
def Covered {F : Type} (maps : ChiMaps F) (c : ChiNetworkData F) : Prop :=
  match c.m_means[0]?, c.b_means[0]?, c.chis[0]?, c.node_indices[0]? with
  | some ms, some _, some _, some ns =>
    ∀ i ∈ List.range ms.length, ∃ n, ns[i]? = some n ∧ n ∈ maps.m_means_map.keys
  | _, _, _, _ => False

/-- The maps hold the same keys and no key twice. -/
def MapsInv {F : Type} (maps : ChiMaps F) : Prop :=
  Aligned maps ∧ maps.m_means_map.keys.Nodup

/-- An environment for examples: node `k` lies at row `k`, column `k + 1`, the
elevation is `row + col`, latitude and longitude are row and column, and
numbers are written in decimal. -/
def example_env : ExportEnv Int Int :=
  ⟨fun k => (k, k + 1), fun r c => r + c, fun r c => (r, c),
   fun x => (toString x).toList, fun x => (toString x).toList⟩

/-! ## Theorems -/

namespace StdMap

theorem find_assign {K V : Type} [DecidableEq K] [LT K] [DecidableRel (α := K) (· < ·)]
    (m : StdMap K V) (k : K) (v : V) (k' : K) :
    find (assign m k v) k' = if k' = k then some v else find m k' := by
  induction m with
  | nil => simp [assign, find]
  | cons e rest ih =>
    obtain ⟨a, w⟩ := e
    unfold assign
    by_cases h1 : k < a
    · simp only [h1, if_true]
      by_cases h2 : k' = k
      · simp [find, h2]
      · simp [find, h2]
    · simp only [h1, if_false]
      by_cases h3 : k = a
      · subst h3
        by_cases h2 : k' = k <;> simp [find, h2]
      · simp only [h3, if_false]
        by_cases h4 : k' = a
        · subst h4
          have : ¬ k' = k := fun h => h3 h.symm
          simp [find, this]
        · simp [find, h4, ih]

theorem find_eq_none_iff {K V : Type} [DecidableEq K] (m : StdMap K V) (k : K) :
    find m k = none ↔ k ∉ keys m := by
  induction m with
  | nil => simp [find, keys]
  | cons e rest ih =>
    obtain ⟨a, w⟩ := e
    by_cases h : k = a
    · simp [find, keys, h]
    · simp only [find, h, if_false, ih]
      simp [keys, h]

theorem find_isSome_iff {K V : Type} [DecidableEq K] (m : StdMap K V) (k : K) :
    (find m k).isSome = true ↔ k ∈ keys m := by
  have := find_eq_none_iff m k
  cases h : find m k with
  | none => simp [h] at this; simp [this]
  | some v => simp [h] at this; simp [this]

theorem keys_assign_congr {K V W : Type} [DecidableEq K] [LT K]
    [DecidableRel (α := K) (· < ·)] (m : StdMap K V) (m' : StdMap K W) (k : K) (v : V) (w : W)
    (h : keys m = keys m') : keys (assign m k v) = keys (assign m' k w) := by
  induction m generalizing m' with
  | nil =>
    cases m' with
    | nil => simp [assign, keys]
    | cons e r => simp [keys] at h
  | cons e rest ih =>
    cases m' with
    | nil => simp [keys] at h
    | cons e' rest' =>
      obtain ⟨a, x⟩ := e
      obtain ⟨a', x'⟩ := e'
      simp only [keys, List.map_cons, List.cons.injEq] at h
      obtain ⟨h1, h2⟩ := h
      subst h1
      have ih' := ih rest' h2
      unfold assign
      by_cases c1 : k < a
      · simp [c1, keys] at *
        exact h2
      · by_cases c2 : k = a
        · subst c2
          rw [if_neg c1, if_neg c1]
          simp only [if_true, keys, List.map_cons] at *
          rw [h2]
        · simp only [c1, c2, if_false, keys, List.map_cons] at *
          rw [ih']

theorem keys_assign_perm {K V : Type} [DecidableEq K] [LT K]
    [DecidableRel (α := K) (· < ·)] (m : StdMap K V) (k : K) (v : V) (h : k ∉ keys m) :
    (keys (assign m k v)).Perm (k :: keys m) := by
  induction m with
  | nil => simp [assign, keys]
  | cons e rest ih =>
    obtain ⟨a, x⟩ := e
    have hne : ¬ k = a := by
      intro hk; apply h; simp [keys, hk]
    have hrest : k ∉ keys rest := by
      intro hk; apply h; simp only [keys, List.map_cons, List.mem_cons]; exact Or.inr hk
    unfold assign
    by_cases c1 : k < a
    · simp [c1, keys]
    · simp only [c1, hne, if_false, keys, List.map_cons]
      exact ((ih hrest).cons a).trans (List.Perm.swap k a _)

end StdMap

/-! ### The merge loop as a fold over samples -/

theorem aligned_empty {F : Type} : Aligned (ChiMaps.empty : ChiMaps F) := by
  simp [Aligned, ChiMaps.empty, StdMap.keys]

theorem absorb_sample_aligned {F : Type} (maps : ChiMaps F) (s : Int × F × F × F)
    (h : Aligned maps) : Aligned (absorb_sample maps s) := by
  unfold absorb_sample
  split
  · exact ⟨StdMap.keys_assign_congr _ _ _ _ _ h.1, StdMap.keys_assign_congr _ _ _ _ _ h.2⟩
  · exact h

theorem absorb_aligned {F : Type} (l : List (Int × F × F × F)) (maps : ChiMaps F)
    (h : Aligned maps) : Aligned (absorb maps l) := by
  induction l generalizing maps with
  | nil => exact h
  | cons s l ih => exact ih _ (absorb_sample_aligned maps s h)

theorem absorb_sample_mem_keys {F : Type} (maps : ChiMaps F) (s : Int × F × F × F) (n : Int) :
    n ∈ (absorb_sample maps s).m_means_map.keys ↔ n ∈ maps.m_means_map.keys ∨ n = s.1 := by
  unfold absorb_sample
  split
  · rename_i h
    have hn : s.1 ∉ maps.m_means_map.keys := by
      rw [← StdMap.find_eq_none_iff]
      simpa using h
    rw [(StdMap.keys_assign_perm _ _ s.2.1 hn).mem_iff]
    simp [or_comm]
  · rename_i h
    have hn : s.1 ∈ maps.m_means_map.keys := by
      rw [← StdMap.find_isSome_iff]
      cases hv : maps.m_means_map.find s.1 with
      | none => simp [hv] at h
      | some v => rfl
    constructor
    · exact Or.inl
    · rintro (h1 | h1)
      · exact h1
      · rw [h1]; exact hn

theorem absorb_sample_nodup {F : Type} (maps : ChiMaps F) (s : Int × F × F × F)
    (h : maps.m_means_map.keys.Nodup) : (absorb_sample maps s).m_means_map.keys.Nodup := by
  unfold absorb_sample
  split
  · rename_i hf
    have hn : s.1 ∉ maps.m_means_map.keys := by
      rw [← StdMap.find_eq_none_iff]
      simpa using hf
    rw [(StdMap.keys_assign_perm _ _ s.2.1 hn).nodup_iff]
    exact List.nodup_cons.mpr ⟨hn, h⟩
  · exact h

theorem absorb_mem_keys {F : Type} (l : List (Int × F × F × F)) (maps : ChiMaps F) (n : Int) :
    n ∈ (absorb maps l).m_means_map.keys ↔
      n ∈ maps.m_means_map.keys ∨ n ∈ l.map Prod.fst := by
  induction l generalizing maps with
  | nil => simp [absorb]
  | cons s l ih =>
    have := ih (absorb_sample maps s)
    simp only [absorb, List.foldl_cons] at this ⊢
    rw [this, absorb_sample_mem_keys]
    simp [or_assoc]

theorem absorb_nodup {F : Type} (l : List (Int × F × F × F)) (maps : ChiMaps F)
    (h : maps.m_means_map.keys.Nodup) : (absorb maps l).m_means_map.keys.Nodup := by
  induction l generalizing maps with
  | nil => exact h
  | cons s l ih => exact ih _ (absorb_sample_nodup maps s h)

theorem absorb_find {F : Type} (l : List (Int × F × F × F)) (maps : ChiMaps F)
    (h : Aligned maps) (n : Int) :
    (absorb maps l).m_means_map.find n =
        (maps.m_means_map.find n).or ((first_sample l n).map (fun s => s.2.1)) ∧
    (absorb maps l).b_means_map.find n =
        (maps.b_means_map.find n).or ((first_sample l n).map (fun s => s.2.2.1)) ∧
    (absorb maps l).chi_coord_map.find n =
        (maps.chi_coord_map.find n).or ((first_sample l n).map (fun s => s.2.2.2)) := by
  induction l generalizing maps with
  | nil => simp [absorb, first_sample]
  | cons s l ih =>
    have hal := absorb_sample_aligned maps s h
    have ih' := ih (absorb_sample maps s) hal
    simp only [absorb, List.foldl_cons] at ih' ⊢
    rw [ih'.1, ih'.2.1, ih'.2.2]
    have hb : ∀ k, maps.b_means_map.find k = none ↔ maps.m_means_map.find k = none := by
      intro k; rw [StdMap.find_eq_none_iff, StdMap.find_eq_none_iff, h.1]
    have hc : ∀ k, maps.chi_coord_map.find k = none ↔ maps.m_means_map.find k = none := by
      intro k; rw [StdMap.find_eq_none_iff, StdMap.find_eq_none_iff, h.2]
    unfold absorb_sample
    by_cases hs : maps.m_means_map.find s.1 = none
    · have hsb := (hb s.1).mpr hs
      have hsc := (hc s.1).mpr hs
      simp only [hs, Option.isNone_none, if_true, StdMap.find_assign]
      by_cases hn : n = s.1
      · subst hn
        simp [first_sample, hs, hsb, hsc]
      · have hn' : ¬ s.1 = n := fun e => hn e.symm
        simp [first_sample, hn, hn']
    · have hs' : (maps.m_means_map.find s.1).isNone = false := by
        cases hv : maps.m_means_map.find s.1 with
        | none => exact absurd hv hs
        | some v => rfl
      simp only [hs', Bool.false_eq_true, if_false]
      by_cases hn : s.1 = n
      · subst hn
        have h1 := hs
        have h2 : ¬ maps.b_means_map.find s.1 = none := fun e => hs ((hb _).mp e)
        have h3 : ¬ maps.chi_coord_map.find s.1 = none := fun e => hs ((hc _).mp e)
        refine ⟨?_, ?_, ?_⟩
        · cases hv : maps.m_means_map.find s.1 with
          | none => exact absurd hv h1
          | some v => simp
        · cases hv : maps.b_means_map.find s.1 with
          | none => exact absurd hv h2
          | some v => simp
        · cases hv : maps.chi_coord_map.find s.1 with
          | none => exact absurd hv h3
          | some v => simp
      · simp [first_sample, hn]

theorem merge_node_parallel {F : Type} (ms bs cs : List F) (ns : List Int) (maps : ChiMaps F)
    (node : Nat) (s : Int × F × F × F)
    (hs : (ns.zip (ms.zip (bs.zip cs)))[node]? = some s) :
    merge_node ms bs cs ns maps node = some (absorb_sample maps s) := by
  obtain ⟨n, m, b, c⟩ := s
  rw [List.getElem?_zip_eq_some] at hs
  obtain ⟨h1, h2⟩ := hs
  rw [List.getElem?_zip_eq_some] at h2
  obtain ⟨h2, h3⟩ := h2
  rw [List.getElem?_zip_eq_some] at h3
  obtain ⟨h3, h4⟩ := h3
  simp only at h1 h2 h3 h4
  unfold merge_node absorb_sample
  simp only [h1, h2, h3, h4]
  split <;> rfl

theorem merge_nodes_upto {F : Type} (ms bs cs : List F) (ns : List Int) (maps : ChiMaps F)
    (k : Nat) (hk : k ≤ (ns.zip (ms.zip (bs.zip cs))).length) :
    (List.range k).foldlM (merge_node ms bs cs ns) maps =
      some (absorb maps ((ns.zip (ms.zip (bs.zip cs))).take k)) := by
  induction k with
  | zero => simp [absorb]
  | succ k ih =>
    have hlt : k < (ns.zip (ms.zip (bs.zip cs))).length := hk
    rw [List.range_succ, List.foldlM_append, ih (Nat.le_of_lt hlt), List.take_succ,
      List.getElem?_eq_getElem hlt]
    simp only [Option.toList, absorb, List.foldl_append, List.foldl_cons, List.foldl_nil,
      List.foldlM_cons, List.foldlM_nil]
    show (merge_node ms bs cs ns _ k >>= fun init => pure init) = _
    rw [merge_node_parallel ms bs cs ns _ k _ (List.getElem?_eq_getElem hlt)]
    rfl

theorem merge_nodes_parallel {F : Type} (ms bs cs : List F) (ns : List Int) (maps : ChiMaps F)
    (hm : ms.length = ns.length) (hb : bs.length = ns.length) (hc : cs.length = ns.length) :
    merge_nodes ms bs cs ns maps = some (absorb maps (ns.zip (ms.zip (bs.zip cs)))) := by
  have hlen : (ns.zip (ms.zip (bs.zip cs))).length = ms.length := by
    simp [List.length_zip, hm, hb, hc]
  unfold merge_nodes
  rw [merge_nodes_upto ms bs cs ns maps ms.length (le_of_eq hlen.symm), ← hlen, List.take_length]

theorem merge_channel_parallel {F : Type} (maps : ChiMaps F) (c : ChiNetworkData F)
    (h : c.parallel = true) : merge_channel maps c = some (absorb maps c.samples) := by
  unfold ChiNetworkData.parallel at h
  unfold merge_channel ChiNetworkData.samples
  split at h
  · rename_i ms bs cs ns h1 h2 h3 h4
    simp only [Bool.and_eq_true, beq_iff_eq] at h
    exact merge_nodes_parallel ms bs cs ns maps h.1.1 h.1.2 h.2
  · exact absurd h (by simp)

theorem samples_nodes {F : Type} (c : ChiNetworkData F) (h : c.parallel = true) :
    c.samples.map Prod.fst = these_chi_node_indices c := by
  unfold ChiNetworkData.parallel at h
  unfold ChiNetworkData.samples these_chi_node_indices
  split at h
  · rename_i ms bs cs ns h1 h2 h3 h4
    simp only [Bool.and_eq_true, beq_iff_eq] at h
    show _ = (c.node_indices[0]?).getD []
    rw [h4]
    apply List.map_fst_zip
    simp [List.length_zip, h.1.1, h.1.2, h.2]
  · exact absurd h (by simp)

theorem foldlM_merge_channel_parallel {F : Type} (chans : List (ChiNetworkData F))
    (maps : ChiMaps F) (h : ∀ c ∈ chans, c.parallel = true) :
    chans.foldlM merge_channel maps =
      some (absorb maps (chans.flatMap ChiNetworkData.samples)) := by
  induction chans generalizing maps with
  | nil => simp [absorb]
  | cons c rest ih =>
    rw [List.foldlM_cons, merge_channel_parallel maps c (h c (List.mem_cons_self _ _))]
    show List.foldlM merge_channel (absorb maps c.samples) rest = _
    rw [ih _ (fun c' hc' => h c' (List.mem_cons_of_mem _ hc'))]
    simp [absorb, List.flatMap_cons, List.foldl_append]

theorem chi_map_merge_parallel {F : Type} (chans : List (ChiNetworkData F))
    (h : ∀ c ∈ chans, c.parallel = true) :
    chi_map_merge chans = some (absorb ChiMaps.empty (chans.flatMap ChiNetworkData.samples)) :=
  foldlM_merge_channel_parallel chans ChiMaps.empty h

theorem samples_getElem? {F : Type} (c : ChiNetworkData F) (h : c.parallel = true) (p : Nat)
    (s : Int × F × F × F) :
    c.samples[p]? = some s ↔
      (these_chi_node_indices c)[p]? = some s.1 ∧ (these_chi_m_means c)[p]? = some s.2.1 ∧
      (these_chi_b_means c)[p]? = some s.2.2.1 ∧ (these_chi_coordinates c)[p]? = some s.2.2.2 := by
  unfold ChiNetworkData.parallel at h
  unfold ChiNetworkData.samples these_chi_node_indices these_chi_m_means these_chi_b_means
    these_chi_coordinates
  split at h
  · rename_i ms bs cs ns h1 h2 h3 h4
    show _ ↔ ((c.node_indices[0]?).getD [])[p]? = _ ∧ ((c.m_means[0]?).getD [])[p]? = _ ∧
      ((c.b_means[0]?).getD [])[p]? = _ ∧ ((c.chis[0]?).getD [])[p]? = _
    rw [h1, h2, h3, h4]
    simp only [Option.getD_some, List.getElem?_zip_eq_some]
  · exact absurd h (by simp)

theorem find?_first {α : Type} (P : α → Bool) (l : List α) (p : Nat) (s : α)
    (hs : l[p]? = some s) (hP : P s = true) (hbefore : ∀ x ∈ l.take p, P x = false) :
    l.find? P = some s := by
  induction l generalizing p with
  | nil => simp at hs
  | cons a l ih =>
    cases p with
    | zero =>
      simp only [List.getElem?_cons_zero, Option.some.injEq] at hs
      subst hs
      simp [hP]
    | succ p =>
      have ha : P a = false := hbefore a (by simp)
      simp only [List.getElem?_cons_succ] at hs
      rw [List.find?_cons, ha]
      exact ih p hs (fun x hx => hbefore x (by simp [hx]))

theorem first_sample_eq_none {F : Type} (l : List (Int × F × F × F)) (n : Int)
    (h : n ∉ l.map Prod.fst) : first_sample l n = none := by
  unfold first_sample
  rw [List.find?_eq_none]
  intro x hx hxn
  apply h
  simp only [decide_eq_true_eq] at hxn
  rw [← hxn]
  exact List.mem_map_of_mem _ hx

theorem mem_keys_merge_iff {F : Type} (chans : List (ChiNetworkData F))
    (hwf : ∀ c ∈ chans, c.parallel = true) (n : Int) :
    n ∈ (absorb ChiMaps.empty (chans.flatMap ChiNetworkData.samples)).m_means_map.keys ↔
      ∃ c ∈ chans, n ∈ these_chi_node_indices c := by
  rw [absorb_mem_keys]
  simp only [ChiMaps.empty, StdMap.keys, List.map_nil, List.not_mem_nil, false_or,
    List.map_flatMap, List.mem_flatMap]
  constructor
  · rintro ⟨c, hc, hn⟩
    exact ⟨c, hc, by rw [← samples_nodes c (hwf c hc)]; exact hn⟩
  · rintro ⟨c, hc, hn⟩
    exact ⟨c, hc, by rw [samples_nodes c (hwf c hc)]; exact hn⟩

/-- C1 (first writer wins). For channels whose vectors are parallel, let node
`n` stand at position `p` of channel `c`, in no channel before `c` and at no
position before `p` in `c`. Whatever channels follow, the merged maps hold for
`n` exactly the `m_mean`, `b_mean` and `chi` found at position `p` of `c`. -/
theorem first_writer_wins {F : Type} (pre post : List (ChiNetworkData F))
    (c : ChiNetworkData F) (p : Nat) (n : Int)
    (hwf : ∀ c' ∈ pre ++ c :: post, c'.parallel = true)
    (hn : (these_chi_node_indices c)[p]? = some n)
    (hchan : ∀ c' ∈ pre, n ∉ these_chi_node_indices c')
    (hpos : n ∉ (these_chi_node_indices c).take p) :
    ∃ maps m b chi, chi_map_merge (pre ++ c :: post) = some maps ∧
      (these_chi_m_means c)[p]? = some m ∧
      (these_chi_b_means c)[p]? = some b ∧
      (these_chi_coordinates c)[p]? = some chi ∧
      maps.m_means_map.find n = some m ∧
      maps.b_means_map.find n = some b ∧
      maps.chi_coord_map.find n = some chi := by
  have hc : c.parallel = true := hwf c (by simp)
  have hlen : p < c.samples.length := by
    have h1 : p < (these_chi_node_indices c).length := by
      by_contra hcon
      rw [List.getElem?_eq_none (Nat.le_of_not_lt hcon)] at hn
      exact absurd hn (by simp)
    rw [← samples_nodes c hc, List.length_map] at h1
    exact h1
  have hs : c.samples[p]? = some c.samples[p] := List.getElem?_eq_getElem hlen
  rcases hsp : c.samples[p] with ⟨k, m, b, chi⟩
  rw [hsp] at hs
  have hs' := (samples_getElem? c hc p _).mp hs
  simp only at hs'
  have hk : k = n := by
    have := hs'.1
    rw [hn] at this
    exact (Option.some.inj this).symm
  subst hk
  have hfirst : first_sample ((pre ++ c :: post).flatMap ChiNetworkData.samples) k =
      some (k, m, b, chi) := by
    unfold first_sample
    rw [List.flatMap_append, List.find?_append, List.flatMap_cons, List.find?_append]
    have h1 : List.find? (fun s => decide (s.1 = k)) (pre.flatMap ChiNetworkData.samples)
        = none := by
      apply first_sample_eq_none
      simp only [List.map_flatMap, List.mem_flatMap, not_exists, not_and]
      intro c' hc'
      rw [samples_nodes c' (hwf c' (by simp [hc']))]
      exact hchan c' hc'
    have h2 : List.find? (fun s => decide (s.1 = k)) c.samples = some (k, m, b, chi) := by
      apply find?_first _ _ p _ hs (by simp)
      intro x hx
      simp only [decide_eq_false_iff_not]
      intro hxk
      apply hpos
      rw [← samples_nodes c hc, ← List.map_take, ← hxk]
      exact List.mem_map_of_mem _ hx
    rw [h1, h2]
    rfl
  refine ⟨_, m, b, chi, chi_map_merge_parallel _ hwf, hs'.2.1, hs'.2.2.1, hs'.2.2.2, ?_⟩
  have hf := absorb_find ((pre ++ c :: post).flatMap ChiNetworkData.samples) ChiMaps.empty
    aligned_empty k
  rw [hfirst] at hf
  simpa [ChiMaps.empty, StdMap.find] using hf

/-- C2 (unique key per node). For channels whose vectors are parallel, the
three merged maps have the same keys, a node id is a key exactly when it occurs
in some channel, no key is repeated, and the number of entries is the number of
distinct node ids over all channels. -/
theorem unique_key_per_node {F : Type} (chans : List (ChiNetworkData F))
    (hwf : ∀ c ∈ chans, c.parallel = true) :
    ∃ maps, chi_map_merge chans = some maps ∧
      maps.b_means_map.keys = maps.m_means_map.keys ∧
      maps.chi_coord_map.keys = maps.m_means_map.keys ∧
      (∀ n, n ∈ maps.m_means_map.keys ↔ ∃ c ∈ chans, n ∈ these_chi_node_indices c) ∧
      maps.m_means_map.keys.Nodup ∧
      maps.m_means_map.length = (chans.flatMap these_chi_node_indices).toFinset.card := by
  have hal := absorb_aligned (chans.flatMap ChiNetworkData.samples) ChiMaps.empty aligned_empty
  have hnd := absorb_nodup (chans.flatMap ChiNetworkData.samples) (ChiMaps.empty : ChiMaps F)
    (by simp [ChiMaps.empty, StdMap.keys])
  refine ⟨_, chi_map_merge_parallel chans hwf, hal.1, hal.2, mem_keys_merge_iff chans hwf, hnd, ?_⟩
  have hset : (absorb ChiMaps.empty (chans.flatMap ChiNetworkData.samples)).m_means_map.keys.toFinset
      = (chans.flatMap these_chi_node_indices).toFinset := by
    ext n
    simp only [List.mem_toFinset, mem_keys_merge_iff chans hwf, List.mem_flatMap]
  rw [← hset, List.toFinset_card_of_nodup hnd]
  simp [StdMap.keys]

/-! ### Channels seen again -/

theorem merge_node_some {F : Type} (ms bs cs : List F) (ns : List Int) (maps maps' : ChiMaps F)
    (i : Nat) (h : merge_node ms bs cs ns maps i = some maps') :
    (∀ k ∈ maps.m_means_map.keys, k ∈ maps'.m_means_map.keys) ∧
      ∃ n, ns[i]? = some n ∧ n ∈ maps'.m_means_map.keys := by
  unfold merge_node at h
  cases hn : ns[i]? with
  | none => simp [hn] at h
  | some n =>
    simp only [hn] at h
    by_cases hf : (maps.m_means_map.find n).isNone = true
    · simp only [hf, if_true] at h
      have hnk : n ∉ maps.m_means_map.keys := by
        rw [← StdMap.find_eq_none_iff]; simpa using hf
      cases hm : ms[i]? with
      | none => simp [hm] at h
      | some m =>
        cases hb : bs[i]? with
        | none => simp [hm, hb] at h
        | some b =>
          cases hc : cs[i]? with
          | none => simp [hm, hb, hc] at h
          | some c =>
            simp only [hm, hb, hc, Option.some.injEq] at h
            subst h
            have hp := StdMap.keys_assign_perm maps.m_means_map n m hnk
            refine ⟨fun k hk => ?_, n, rfl, ?_⟩
            · exact hp.mem_iff.mpr (List.mem_cons_of_mem _ hk)
            · exact hp.mem_iff.mpr (List.mem_cons_self _ _)
    · rw [if_neg hf] at h
      have h' : maps = maps' := Option.some.inj h
      subst h'
      refine ⟨fun k hk => hk, n, rfl, ?_⟩
      rw [← StdMap.find_isSome_iff]
      cases hv : maps.m_means_map.find n with
      | none => simp [hv] at hf
      | some v => rfl

theorem merge_node_covered {F : Type} (ms bs cs : List F) (ns : List Int) (maps : ChiMaps F)
    (i : Nat) (n : Int) (hn : ns[i]? = some n) (hk : n ∈ maps.m_means_map.keys) :
    merge_node ms bs cs ns maps i = some maps := by
  unfold merge_node
  have hf : (maps.m_means_map.find n).isNone = false := by
    have := (StdMap.find_isSome_iff maps.m_means_map n).mpr hk
    cases hv : maps.m_means_map.find n with
    | none => simp [hv] at this
    | some v => rfl
  simp [hn, hf]

theorem foldlM_merge_node_some {F : Type} (ms bs cs : List F) (ns : List Int) (l : List Nat)
    (maps maps' : ChiMaps F) (h : l.foldlM (merge_node ms bs cs ns) maps = some maps') :
    (∀ k ∈ maps.m_means_map.keys, k ∈ maps'.m_means_map.keys) ∧
      ∀ i ∈ l, ∃ n, ns[i]? = some n ∧ n ∈ maps'.m_means_map.keys := by
  induction l generalizing maps with
  | nil =>
    simp only [List.foldlM_nil] at h
    have h' : maps = maps' := Option.some.inj h
    subst h'
    exact ⟨fun k hk => hk, fun i hi => absurd hi (List.not_mem_nil _)⟩
  | cons a l ih =>
    rw [List.foldlM_cons] at h
    cases h1 : merge_node ms bs cs ns maps a with
    | none => rw [h1] at h; exact absurd h (by simp)
    | some mid =>
      rw [h1] at h
      have h2 : l.foldlM (merge_node ms bs cs ns) mid = some maps' := h
      obtain ⟨hmono1, n, hn, hnk⟩ := merge_node_some ms bs cs ns maps mid a h1
      obtain ⟨hmono2, hall⟩ := ih mid h2
      refine ⟨fun k hk => hmono2 k (hmono1 k hk), ?_⟩
      intro i hi
      rcases List.mem_cons.mp hi with rfl | hi'
      · exact ⟨n, hn, hmono2 n hnk⟩
      · exact hall i hi'

theorem foldlM_merge_node_covered {F : Type} (ms bs cs : List F) (ns : List Int) (l : List Nat)
    (maps : ChiMaps F) (h : ∀ i ∈ l, ∃ n, ns[i]? = some n ∧ n ∈ maps.m_means_map.keys) :
    l.foldlM (merge_node ms bs cs ns) maps = some maps := by
  induction l with
  | nil => rfl
  | cons a l ih =>
    obtain ⟨n, hn, hk⟩ := h a (List.mem_cons_self _ _)
    rw [List.foldlM_cons, merge_node_covered ms bs cs ns maps a n hn hk]
    exact ih (fun i hi => h i (List.mem_cons_of_mem _ hi))

theorem merge_channel_some {F : Type} (maps maps' : ChiMaps F) (c : ChiNetworkData F)
    (h : merge_channel maps c = some maps') :
    (∀ k ∈ maps.m_means_map.keys, k ∈ maps'.m_means_map.keys) ∧ Covered maps' c := by
  unfold merge_channel at h
  unfold Covered
  split at h
  · rename_i ms bs cs ns h1 h2 h3 h4
    exact foldlM_merge_node_some ms bs cs ns _ maps maps' h
  · exact absurd h (by simp)

theorem merge_channel_covered {F : Type} (maps : ChiMaps F) (c : ChiNetworkData F)
    (h : Covered maps c) : merge_channel maps c = some maps := by
  unfold Covered at h
  unfold merge_channel
  split at h
  · rename_i ms bs cs ns h1 h2 h3 h4
    exact foldlM_merge_node_covered ms bs cs ns _ maps h
  · exact absurd h id

theorem covered_mono {F : Type} (maps maps' : ChiMaps F) (c : ChiNetworkData F)
    (hmono : ∀ k ∈ maps.m_means_map.keys, k ∈ maps'.m_means_map.keys) (h : Covered maps c) :
    Covered maps' c := by
  unfold Covered at h ⊢
  split at h
  · rename_i ms bs cs ns h1 h2 h3 h4
    intro i hi
    obtain ⟨n, hn, hk⟩ := h i hi
    exact ⟨n, hn, hmono n hk⟩
  · exact absurd h id

theorem foldlM_merge_channel_some {F : Type} (chans : List (ChiNetworkData F))
    (maps maps' : ChiMaps F) (h : chans.foldlM merge_channel maps = some maps') :
    (∀ k ∈ maps.m_means_map.keys, k ∈ maps'.m_means_map.keys) ∧
      ∀ c ∈ chans, Covered maps' c := by
  induction chans generalizing maps with
  | nil =>
    simp only [List.foldlM_nil] at h
    have h' : maps = maps' := Option.some.inj h
    subst h'
    exact ⟨fun k hk => hk, fun c hc => absurd hc (List.not_mem_nil _)⟩
  | cons a l ih =>
    rw [List.foldlM_cons] at h
    cases h1 : merge_channel maps a with
    | none => rw [h1] at h; exact absurd h (by simp)
    | some mid =>
      rw [h1] at h
      have h2 : l.foldlM merge_channel mid = some maps' := h
      obtain ⟨hmono1, hcov⟩ := merge_channel_some maps mid a h1
      obtain ⟨hmono2, hall⟩ := ih mid h2
      refine ⟨fun k hk => hmono2 k (hmono1 k hk), ?_⟩
      intro c hc
      rcases List.mem_cons.mp hc with rfl | hc'
      · exact covered_mono mid maps' c hmono2 hcov
      · exact hall c hc'

theorem foldlM_merge_channel_covered {F : Type} (reps : List (ChiNetworkData F))
    (maps : ChiMaps F) (h : ∀ c ∈ reps, Covered maps c) :
    reps.foldlM merge_channel maps = some maps := by
  induction reps with
  | nil => rfl
  | cons a l ih =>
    rw [List.foldlM_cons, merge_channel_covered maps a (h a (List.mem_cons_self _ _))]
    exact ih (fun c hc => h c (List.mem_cons_of_mem _ hc))

theorem chi_map_merge_append_repeats {F : Type} (chans reps : List (ChiNetworkData F))
    (hreps : ∀ c ∈ reps, c ∈ chans) :
    chi_map_merge (chans ++ reps) = chi_map_merge chans := by
  unfold chi_map_merge
  rw [List.foldlM_append]
  cases h : chans.foldlM merge_channel ChiMaps.empty with
  | none => rfl
  | some maps =>
    obtain ⟨_, hcov⟩ := foldlM_merge_channel_some chans ChiMaps.empty maps h
    exact foldlM_merge_channel_covered reps maps (fun c hc => hcov c (hreps c hc))

theorem first_occurrence_merged {F : Type} (pre post : List (ChiNetworkData F))
    (c : ChiNetworkData F) (p : Nat) (n : Int)
    (hwf : ∀ c' ∈ pre ++ c :: post, c'.parallel = true)
    (hn : (these_chi_node_indices c)[p]? = some n)
    (hchan : ∀ c' ∈ pre, n ∉ these_chi_node_indices c')
    (hpos : n ∉ (these_chi_node_indices c).take p) :
    ∃ maps m b chi, chi_map_merge (pre ++ c :: post) = some maps ∧
      (these_chi_m_means c)[p]? = some m ∧
      (these_chi_b_means c)[p]? = some b ∧
      (these_chi_coordinates c)[p]? = some chi ∧
      maps.m_means_map.find n = some m ∧
      maps.b_means_map.find n = some b ∧
      maps.chi_coord_map.find n = some chi := by
  have hc : c.parallel = true := hwf c (by simp)
  have hlen : p < c.samples.length := by
    have h1 : p < (these_chi_node_indices c).length := by
      by_contra hcon
      rw [List.getElem?_eq_none (Nat.le_of_not_lt hcon)] at hn
      exact absurd hn (by simp)
    rw [← samples_nodes c hc, List.length_map] at h1
    exact h1
  have hs : c.samples[p]? = some c.samples[p] := List.getElem?_eq_getElem hlen
  rcases hsp : c.samples[p] with ⟨k, m, b, chi⟩
  rw [hsp] at hs
  have hs' := (samples_getElem? c hc p _).mp hs
  simp only at hs'
  have hk : k = n := by
    have := hs'.1
    rw [hn] at this
    exact (Option.some.inj this).symm
  subst hk
  have hfirst : first_sample ((pre ++ c :: post).flatMap ChiNetworkData.samples) k =
      some (k, m, b, chi) := by
    unfold first_sample
    rw [List.flatMap_append, List.find?_append, List.flatMap_cons, List.find?_append]
    have h1 : List.find? (fun s => decide (s.1 = k)) (pre.flatMap ChiNetworkData.samples)
        = none := by
      apply first_sample_eq_none
      simp only [List.map_flatMap, List.mem_flatMap, not_exists, not_and]
      intro c' hc'
      rw [samples_nodes c' (hwf c' (by simp [hc']))]
      exact hchan c' hc'
    have h2 : List.find? (fun s => decide (s.1 = k)) c.samples = some (k, m, b, chi) := by
      apply find?_first _ _ p _ hs (by simp)
      intro x hx
      simp only [decide_eq_false_iff_not]
      intro hxk
      apply hpos
      rw [← samples_nodes c hc, ← List.map_take, ← hxk]
      exact List.mem_map_of_mem _ hx
    rw [h1, h2]
    rfl
  refine ⟨_, m, b, chi, chi_map_merge_parallel _ hwf, hs'.2.1, hs'.2.2.1, hs'.2.2.2, ?_⟩
  have hf := absorb_find ((pre ++ c :: post).flatMap ChiNetworkData.samples) ChiMaps.empty
    aligned_empty k
  rw [hfirst] at hf
  simpa [ChiMaps.empty, StdMap.find] using hf

/-- C4 (merge is reproducible and idempotent). The merged table is the value
of `chi_map_merge` at the ordered sequence of channel results. Merging the
sequence followed by repeats of channels it already holds gives the same
result as merging it once, in particular for one repeated channel and for the
sequence concatenated with itself. For channels with parallel vectors, a node
`n` first met at position `p` of channel `c` (in no earlier channel, at no
earlier position) holds, in the table of the sequence and in the same table
obtained with any repeats, the `m_mean`, `b_mean` and chi found there: a node
shared with later channels keeps the first channel's value both times. -/
theorem merge_idempotent {F : Type} (chans : List (ChiNetworkData F)) :
    (∀ reps : List (ChiNetworkData F), (∀ c ∈ reps, c ∈ chans) →
        chi_map_merge (chans ++ reps) = chi_map_merge chans) ∧
    (∀ c ∈ chans, chi_map_merge (chans ++ [c]) = chi_map_merge chans) ∧
    chi_map_merge (chans ++ chans) = chi_map_merge chans ∧
    (∀ (pre post reps : List (ChiNetworkData F)) (c : ChiNetworkData F) (p : Nat) (n : Int),
      chans = pre ++ c :: post →
      (∀ c' ∈ chans, c'.parallel = true) →
      (these_chi_node_indices c)[p]? = some n →
      (∀ c' ∈ pre, n ∉ these_chi_node_indices c') →
      n ∉ (these_chi_node_indices c).take p →
      (∀ r ∈ reps, r ∈ chans) →
      ∃ maps m b chi,
        chi_map_merge chans = some maps ∧
        chi_map_merge (chans ++ reps) = some maps ∧
        (these_chi_m_means c)[p]? = some m ∧
        (these_chi_b_means c)[p]? = some b ∧
        (these_chi_coordinates c)[p]? = some chi ∧
        maps.m_means_map.find n = some m ∧
        maps.b_means_map.find n = some b ∧
        maps.chi_coord_map.find n = some chi) := by
  refine ⟨fun reps h => chi_map_merge_append_repeats chans reps h,
    fun c hc => chi_map_merge_append_repeats chans [c] (by simpa using hc),
    chi_map_merge_append_repeats chans chans (fun _ h => h), ?_⟩
  intro pre post reps c p n hsplit hwf hn hchan hpos hreps
  subst hsplit
  obtain ⟨maps, m, b, chi, hm, h1, h2, h3, h4, h5, h6⟩ :=
    first_occurrence_merged pre post c p n hwf hn hchan hpos
  refine ⟨maps, m, b, chi, hm, ?_, h1, h2, h3, h4, h5, h6⟩
  rw [chi_map_merge_append_repeats _ reps hreps, hm]

/-! ### Counting entries -/

theorem chi_map_merge_size {F : Type} (chans : List (ChiNetworkData F))
    (hwf : ∀ c ∈ chans, c.parallel = true) :
    ∃ maps, chi_map_merge chans = some maps ∧
      maps.m_means_map.length = (chans.flatMap these_chi_node_indices).toFinset.card := by
  have hnd := absorb_nodup (chans.flatMap ChiNetworkData.samples) (ChiMaps.empty : ChiMaps F)
    (by simp [ChiMaps.empty, StdMap.keys])
  refine ⟨_, chi_map_merge_parallel chans hwf, ?_⟩
  have hset : (absorb ChiMaps.empty (chans.flatMap ChiNetworkData.samples)).m_means_map.keys.toFinset
      = (chans.flatMap these_chi_node_indices).toFinset := by
    ext n
    simp only [List.mem_toFinset, mem_keys_merge_iff chans hwf, List.mem_flatMap]
  rw [← hset, List.toFinset_card_of_nodup hnd]
  simp [StdMap.keys]

theorem card_three_sharing_trunk (A B C T : Finset Int)
    (hA : A.card = 50) (hB : B.card = 50) (hC : C.card = 50) (hT : T.card = 10)
    (hAB : A ∩ B = T) (hAC : A ∩ C = T) (hBC : B ∩ C = T) :
    (A ∪ B ∪ C).card = 130 := by
  have h1 := Finset.card_union_add_card_inter A B
  have h2 := Finset.card_union_add_card_inter (A ∪ B) C
  have h3 : (A ∪ B) ∩ C = T := by
    rw [Finset.union_inter_distrib_right, hAC, hBC, Finset.union_self]
  rw [hAB, hA, hB, hT] at h1
  rw [h3, hC, hT] at h2
  omega

/-- C3 (entry count, as the code has it). Three channels with parallel vectors
of 50 distinct node ids each, in which the same 10 trunk ids occur in all three
channels and any id shared by two channels is a trunk id, merge into a table of
exactly 130 entries: 150 samples less the 20 repeated trunk samples. -/
theorem three_channels_entry_count {F : Type} (c1 c2 c3 : ChiNetworkData F) (trunk : List Int)
    (hwf : ∀ c ∈ [c1, c2, c3], c.parallel = true)
    (hlen : ∀ c ∈ [c1, c2, c3], (these_chi_node_indices c).length = 50)
    (hnd : ∀ c ∈ [c1, c2, c3], (these_chi_node_indices c).Nodup)
    (htn : trunk.Nodup) (htl : trunk.length = 10)
    (htrunk : ∀ c ∈ [c1, c2, c3], ∀ t ∈ trunk, t ∈ these_chi_node_indices c)
    (h12 : ∀ x ∈ these_chi_node_indices c1, x ∈ these_chi_node_indices c2 → x ∈ trunk)
    (h13 : ∀ x ∈ these_chi_node_indices c1, x ∈ these_chi_node_indices c3 → x ∈ trunk)
    (h23 : ∀ x ∈ these_chi_node_indices c2, x ∈ these_chi_node_indices c3 → x ∈ trunk) :
    ∃ maps, chi_map_merge [c1, c2, c3] = some maps ∧ maps.m_means_map.length = 130 := by
  obtain ⟨maps, hm, hsize⟩ := chi_map_merge_size [c1, c2, c3] hwf
  refine ⟨maps, hm, ?_⟩
  rw [hsize]
  have hcard : ∀ c ∈ [c1, c2, c3], (these_chi_node_indices c).toFinset.card = 50 := by
    intro c hc
    rw [List.toFinset_card_of_nodup (hnd c hc), hlen c hc]
  have hinter : ∀ a ∈ [c1, c2, c3], ∀ b ∈ [c1, c2, c3],
      (∀ x ∈ these_chi_node_indices a, x ∈ these_chi_node_indices b → x ∈ trunk) →
      (these_chi_node_indices a).toFinset ∩ (these_chi_node_indices b).toFinset
        = trunk.toFinset := by
    intro a ha b hb hab
    ext x
    simp only [Finset.mem_inter, List.mem_toFinset]
    constructor
    · rintro ⟨h1, h2⟩
      exact hab x h1 h2
    · intro hx
      exact ⟨htrunk a ha x hx, htrunk b hb x hx⟩
  have hflat : ([c1, c2, c3].flatMap these_chi_node_indices).toFinset =
      (these_chi_node_indices c1).toFinset ∪ (these_chi_node_indices c2).toFinset ∪
        (these_chi_node_indices c3).toFinset := by
    ext x
    simp [List.mem_flatMap, or_assoc]
  rw [hflat]
  exact card_three_sharing_trunk _ _ _ trunk.toFinset (hcard c1 (by simp)) (hcard c2 (by simp))
    (hcard c3 (by simp)) (by rw [List.toFinset_card_of_nodup htn, htl])
    (hinter c1 (by simp) c2 (by simp) h12) (hinter c1 (by simp) c3 (by simp) h13)
    (hinter c2 (by simp) c3 (by simp) h23)

/-! ### The export loop -/

theorem merge_node_inv {F : Type} (ms bs cs : List F) (ns : List Int) (maps maps' : ChiMaps F)
    (i : Nat) (h : merge_node ms bs cs ns maps i = some maps') (hinv : MapsInv maps) :
    MapsInv maps' := by
  unfold merge_node at h
  cases hn : ns[i]? with
  | none => simp [hn] at h
  | some n =>
    simp only [hn] at h
    by_cases hf : (maps.m_means_map.find n).isNone = true
    · rw [if_pos hf] at h
      cases hm : ms[i]? with
      | none => simp [hm] at h
      | some m =>
        cases hb : bs[i]? with
        | none => simp [hm, hb] at h
        | some b =>
          cases hc : cs[i]? with
          | none => simp [hm, hb, hc] at h
          | some c =>
            simp only [hm, hb, hc, Option.some.injEq] at h
            have he : maps' = absorb_sample maps (n, m, b, c) := by
              unfold absorb_sample
              rw [if_pos hf]
              exact h.symm
            rw [he]
            exact ⟨absorb_sample_aligned maps _ hinv.1, absorb_sample_nodup maps _ hinv.2⟩
    · rw [if_neg hf] at h
      have h' : maps = maps' := Option.some.inj h
      rw [← h']
      exact hinv

theorem foldlM_inv {σ ι : Type} (P : σ → Prop) (f : σ → ι → Option σ)
    (hf : ∀ s i s', f s i = some s' → P s → P s') (l : List ι) (s s' : σ)
    (h : l.foldlM f s = some s') (hs : P s) : P s' := by
  induction l generalizing s with
  | nil =>
    have h' : s = s' := Option.some.inj h
    rw [← h']
    exact hs
  | cons a l ih =>
    rw [List.foldlM_cons] at h
    cases h1 : f s a with
    | none => rw [h1] at h; exact absurd h (by simp)
    | some mid =>
      rw [h1] at h
      exact ih mid h (hf s a mid h1 hs)

theorem merge_channel_inv {F : Type} (maps : ChiMaps F) (c : ChiNetworkData F)
    (maps' : ChiMaps F) (h : merge_channel maps c = some maps') (hinv : MapsInv maps) :
    MapsInv maps' := by
  unfold merge_channel at h
  split at h
  · rename_i ms bs cs ns h1 h2 h3 h4
    exact foldlM_inv MapsInv (merge_node ms bs cs ns)
      (fun s i s' hs hP => merge_node_inv ms bs cs ns s s' i hs hP) _ maps maps' h hinv
  · exact absurd h (by simp)

theorem chi_map_merge_inv {F : Type} (chans : List (ChiNetworkData F)) (maps : ChiMaps F)
    (h : chi_map_merge chans = some maps) : MapsInv maps :=
  foldlM_inv MapsInv merge_channel merge_channel_inv chans ChiMaps.empty maps h
    ⟨aligned_empty, by simp [ChiMaps.empty, StdMap.keys]⟩

theorem StdMap.find_of_mem {V : Type} (m : IntMap V) (k : Int) (v : V)
    (hnd : (StdMap.keys m).Nodup) (h : (k, v) ∈ m) : StdMap.find m k = some v := by
  induction m with
  | nil => exact absurd h (List.not_mem_nil _)
  | cons e rest ih =>
    obtain ⟨a, w⟩ := e
    simp only [StdMap.keys, List.map_cons, List.nodup_cons] at hnd
    rcases List.mem_cons.mp h with heq | hmem
    · simp only [Prod.mk.injEq] at heq
      simp [StdMap.find, heq.1, heq.2]
    · have hne : ¬ k = a := by
        intro hka
        apply hnd.1
        rw [← hka]
        exact List.mem_map_of_mem Prod.fst hmem
      simp only [StdMap.find, hne, if_false]
      exact ih hnd.2 hmem

theorem StdMap.find_isSome_of_keys_eq {V W : Type} (m : IntMap V) (m' : IntMap W) (k : Int)
    (hk : StdMap.keys m' = StdMap.keys m) (h : k ∈ StdMap.keys m) :
    ∃ w, StdMap.find m' k = some w := by
  have := (StdMap.find_isSome_iff m' k).mpr (by rw [hk]; exact h)
  cases hv : StdMap.find m' k with
  | none => simp [hv] at this
  | some w => exact ⟨w, rfl⟩

/-- C6 (export format). Whenever the merge loop completes, the file holds the
header line and then one line per entry of the merged table, in table order:
for the `i`-th entry, of node `k`, line `i + 1` is the six fields latitude,
longitude, chi, elevation, m_chi, b_chi joined by commas, where chi, m_chi and
b_chi are the values stored for `k` in the three maps and elevation is the
Elevation raster at the row and column of `k`. -/
theorem export_format {F D : Type} [Zero F] (env : ExportEnv F D)
    (chans : List (ChiNetworkData F)) (maps : ChiMaps F)
    (hmerge : chi_map_merge chans = some maps) :
    ∃ out, chi_map_automator env chans = some out ∧
      out[0]? = some "latitude,longitude,chi,elevation,m_chi,b_chi".toList ∧
      out.length = 1 + maps.m_means_map.length ∧
      ∀ (i : Nat) (k : Int) (m : F), maps.m_means_map[i]? = some (k, m) →
        ∃ b chi, maps.b_means_map.find k = some b ∧ maps.chi_coord_map.find k = some chi ∧
          maps.m_means_map.find k = some m ∧
          out[i + 1]? = some
            (env.show_double (env.get_lat_and_long_locations
                (env.retrieve_current_row_and_col k).1 (env.retrieve_current_row_and_col k).2).1
              ++ [','] ++
             env.show_double (env.get_lat_and_long_locations
                (env.retrieve_current_row_and_col k).1 (env.retrieve_current_row_and_col k).2).2
              ++ [','] ++
             env.show_float chi ++ [','] ++
             env.show_float (env.get_data_element
                (env.retrieve_current_row_and_col k).1 (env.retrieve_current_row_and_col k).2)
              ++ [','] ++
             env.show_float m ++ [','] ++ env.show_float b) := by
  obtain ⟨hal, hnd⟩ := chi_map_merge_inv chans maps hmerge
  refine ⟨chi_data_out env maps, by simp [chi_map_automator, hmerge],
    by simp [chi_data_out, chi_header], ?_, ?_⟩
  · simp [chi_data_out, StdMap.keys, Nat.add_comm]
  · intro i k m hi
    have hmem : (k, m) ∈ maps.m_means_map := List.getElem?_mem hi
    have hk : k ∈ maps.m_means_map.keys := List.mem_map_of_mem Prod.fst hmem
    have hfm := StdMap.find_of_mem maps.m_means_map k m hnd hmem
    obtain ⟨b, hb⟩ := StdMap.find_isSome_of_keys_eq maps.m_means_map maps.b_means_map k hal.1 hk
    obtain ⟨chi, hc⟩ := StdMap.find_isSome_of_keys_eq maps.m_means_map maps.chi_coord_map k hal.2 hk
    refine ⟨b, chi, hb, hc, hfm, ?_⟩
    simp only [chi_data_out, List.getElem?_cons_succ, StdMap.keys, List.getElem?_map, hi,
      Option.map_some', chi_line, StdMap.index, hfm, hb, hc, Option.getD_some]

/-! ### Extractions whose vectors are not parallel -/

/-- C1, witness: node 7 stands at position 1 of the first channel and again in
the second; the merged maps keep the values of the first. -/
theorem first_writer_wins_witness :
    ∃ maps m b chi,
      chi_map_merge ([] ++ (⟨[[1, 2]], [[3, 4]], [[5, 6]], [[9, 7]]⟩ : ChiNetworkData Int) ::
        [⟨[[10, 20]], [[30, 40]], [[50, 60]], [[7, 8]]⟩]) = some maps ∧
      (these_chi_m_means (⟨[[1, 2]], [[3, 4]], [[5, 6]], [[9, 7]]⟩ : ChiNetworkData Int))[1]?
        = some m ∧
      (these_chi_b_means (⟨[[1, 2]], [[3, 4]], [[5, 6]], [[9, 7]]⟩ : ChiNetworkData Int))[1]?
        = some b ∧
      (these_chi_coordinates (⟨[[1, 2]], [[3, 4]], [[5, 6]], [[9, 7]]⟩ : ChiNetworkData Int))[1]?
        = some chi ∧
      maps.m_means_map.find 7 = some m ∧ maps.b_means_map.find 7 = some b ∧
      maps.chi_coord_map.find 7 = some chi :=
  first_writer_wins [] [⟨[[10, 20]], [[30, 40]], [[50, 60]], [[7, 8]]⟩]
    ⟨[[1, 2]], [[3, 4]], [[5, 6]], [[9, 7]]⟩ 1 7 (by decide) (by decide) (by decide) (by decide)

/-- C2, witness: two channels sharing node 7 give three entries. -/
theorem unique_key_per_node_witness :
    ∃ maps, chi_map_merge [(⟨[[1, 2]], [[3, 4]], [[5, 6]], [[9, 7]]⟩ : ChiNetworkData Int),
        ⟨[[10, 20]], [[30, 40]], [[50, 60]], [[7, 8]]⟩] = some maps ∧
      maps.b_means_map.keys = maps.m_means_map.keys ∧
      maps.chi_coord_map.keys = maps.m_means_map.keys ∧
      (∀ n, n ∈ maps.m_means_map.keys ↔
        ∃ c ∈ [(⟨[[1, 2]], [[3, 4]], [[5, 6]], [[9, 7]]⟩ : ChiNetworkData Int),
          ⟨[[10, 20]], [[30, 40]], [[50, 60]], [[7, 8]]⟩], n ∈ these_chi_node_indices c) ∧
      maps.m_means_map.keys.Nodup ∧
      maps.m_means_map.length =
        ([(⟨[[1, 2]], [[3, 4]], [[5, 6]], [[9, 7]]⟩ : ChiNetworkData Int),
          ⟨[[10, 20]], [[30, 40]], [[50, 60]], [[7, 8]]⟩].flatMap
            these_chi_node_indices).toFinset.card :=
  unique_key_per_node _ (by decide)

/-- C4, witness: node 7 stands at position 1 of the first channel with the
values 2, 4, 6 and again in the second channel with 10, 30, 50; merged once, and
merged again with the second channel repeated, the table holds 2, 4, 6. -/
theorem merge_idempotent_witness :
    ∃ maps m b chi,
      chi_map_merge [(⟨[[1, 2]], [[3, 4]], [[5, 6]], [[9, 7]]⟩ : ChiNetworkData Int),
          ⟨[[10, 20]], [[30, 40]], [[50, 60]], [[7, 8]]⟩] = some maps ∧
      chi_map_merge ([(⟨[[1, 2]], [[3, 4]], [[5, 6]], [[9, 7]]⟩ : ChiNetworkData Int),
          ⟨[[10, 20]], [[30, 40]], [[50, 60]], [[7, 8]]⟩] ++
          [⟨[[10, 20]], [[30, 40]], [[50, 60]], [[7, 8]]⟩]) = some maps ∧
      (these_chi_m_means (⟨[[1, 2]], [[3, 4]], [[5, 6]], [[9, 7]]⟩ : ChiNetworkData Int))[1]?
        = some m ∧
      (these_chi_b_means (⟨[[1, 2]], [[3, 4]], [[5, 6]], [[9, 7]]⟩ : ChiNetworkData Int))[1]?
        = some b ∧
      (these_chi_coordinates (⟨[[1, 2]], [[3, 4]], [[5, 6]], [[9, 7]]⟩ : ChiNetworkData Int))[1]?
        = some chi ∧
      maps.m_means_map.find 7 = some m ∧ maps.b_means_map.find 7 = some b ∧
      maps.chi_coord_map.find 7 = some chi :=
  (merge_idempotent
      [(⟨[[1, 2]], [[3, 4]], [[5, 6]], [[9, 7]]⟩ : ChiNetworkData Int),
        ⟨[[10, 20]], [[30, 40]], [[50, 60]], [[7, 8]]⟩]).2.2.2
    [] [⟨[[10, 20]], [[30, 40]], [[50, 60]], [[7, 8]]⟩]
    [⟨[[10, 20]], [[30, 40]], [[50, 60]], [[7, 8]]⟩]
    ⟨[[1, 2]], [[3, 4]], [[5, 6]], [[9, 7]]⟩ 1 7
    rfl (by decide) (by decide) (by decide) (by decide) (by decide)

/-- C6, witness: the file of two channels sharing node 7 has the header and
three lines. -/
theorem export_format_witness :
    ∃ out, chi_map_automator example_env
        [(⟨[[1, 2]], [[3, 4]], [[5, 6]], [[9, 7]]⟩ : ChiNetworkData Int),
          ⟨[[10, 20]], [[30, 40]], [[50, 60]], [[7, 8]]⟩] = some out ∧
      out[0]? = some "latitude,longitude,chi,elevation,m_chi,b_chi".toList ∧
      out.length = 4 := by
  obtain ⟨out, h1, h2, h3, _⟩ := export_format example_env
    [(⟨[[1, 2]], [[3, 4]], [[5, 6]], [[9, 7]]⟩ : ChiNetworkData Int),
      ⟨[[10, 20]], [[30, 40]], [[50, 60]], [[7, 8]]⟩]
    ⟨[(7, 2), (8, 20), (9, 1)], [(7, 4), (8, 40), (9, 3)], [(7, 6), (8, 60), (9, 5)]⟩
    (by decide)
  exact ⟨out, h1, h2, h3⟩

set_option maxRecDepth 100000 in
/-- C3, witness: the scenario with trunk `0..9` and own nodes `10..49`,
`50..89`, `90..129`. -/
theorem three_channels_entry_count_witness :
    ∃ maps, chi_map_merge [trunk_channel 10, trunk_channel 50, trunk_channel 90] = some maps ∧
      maps.m_means_map.length = 130 :=
  three_channels_entry_count (trunk_channel 10) (trunk_channel 50) (trunk_channel 90) trunk_ids
    (by decide) (by decide) (by decide) (by decide) (by decide) (by decide) (by decide)
    (by decide) (by decide)

set_option maxRecDepth 100000 in
/-- C3, counterexample to the count 140: three channels of 50 distinct nodes
sharing the trunk `0..9` and otherwise disjoint merge into 130 entries. -/
theorem three_channels_not_140 :
    (∀ c ∈ [trunk_channel 10, trunk_channel 50, trunk_channel 90],
      c.parallel = true ∧ (these_chi_node_indices c).length = 50 ∧
      (these_chi_node_indices c).Nodup ∧ ∀ t ∈ trunk_ids, t ∈ these_chi_node_indices c) ∧
    trunk_ids.Nodup ∧ trunk_ids.length = 10 ∧
    (∀ x ∈ these_chi_node_indices (trunk_channel 10),
      x ∈ these_chi_node_indices (trunk_channel 50) → x ∈ trunk_ids) ∧
    (∀ x ∈ these_chi_node_indices (trunk_channel 10),
      x ∈ these_chi_node_indices (trunk_channel 90) → x ∈ trunk_ids) ∧
    (∀ x ∈ these_chi_node_indices (trunk_channel 50),
      x ∈ these_chi_node_indices (trunk_channel 90) → x ∈ trunk_ids) ∧
    (chi_map_merge [trunk_channel 10, trunk_channel 50, trunk_channel 90]).map
      (fun maps => maps.m_means_map.length) = some 130 ∧
    ¬ ∃ maps, chi_map_merge [trunk_channel 10, trunk_channel 50, trunk_channel 90] = some maps ∧
      maps.m_means_map.length = 140 := by
  have hsize : (chi_map_merge [trunk_channel 10, trunk_channel 50, trunk_channel 90]).map
      (fun maps => maps.m_means_map.length) = some 130 := by decide
  refine ⟨by decide, by decide, by decide, by decide, by decide, by decide, hsize, ?_⟩
  rintro ⟨maps, hm, hl⟩
  rw [hm] at hsize
  simp only [Option.map_some', Option.some.injEq] at hsize
  omega

/-! ### `get_string_before_dot` -/

theorem last_index_of_none (s : Str) (c : Char) : last_index_of s c = none ↔ c ∉ s := by
  induction s with
  | nil => simp [last_index_of]
  | cons a rest ih =>
    unfold last_index_of
    cases h : last_index_of rest c with
    | some i =>
      have hmem : c ∈ rest := by
        by_contra hc
        rw [ih.mpr hc] at h
        exact absurd h (by simp)
      simp [hmem]
    | none =>
      have hnot : c ∉ rest := ih.mp h
      by_cases hac : a = c
      · simp [hac]
      · have hca : ¬ c = a := fun e => hac e.symm
        simp [hac, hca, hnot]

theorem last_index_of_some (s : Str) (c : Char) (i : Nat) (h : last_index_of s c = some i) :
    i < s.length ∧ ∃ t, s = s.take i ++ c :: t ∧ c ∉ t := by
  induction s generalizing i with
  | nil => simp [last_index_of] at h
  | cons a rest ih =>
    unfold last_index_of at h
    cases hr : last_index_of rest c with
    | some j =>
      rw [hr] at h
      simp only [Option.some.injEq] at h
      subst h
      obtain ⟨hlt, t, ht, hct⟩ := ih j hr
      refine ⟨by simp [hlt], t, ?_, hct⟩
      rw [List.take_succ_cons, List.cons_append, ← ht]
    | none =>
      rw [hr] at h
      by_cases hac : a = c
      · simp only [hac, if_true, Option.some.injEq] at h
        subst h
        subst hac
        exact ⟨by simp, rest, by simp, (last_index_of_none rest a).mp hr⟩
      · simp [hac] at h

/-- For strings shorter than `2 ^ 32` characters the function returns the
string before the last dot, and the whole string when there is no dot. -/
theorem get_string_before_dot_short (s : Str) (hlen : s.length < 2 ^ 32) :
    ('.' ∈ s → ∃ t, s = get_string_before_dot s ++ '.' :: t ∧ '.' ∉ t) ∧
    ('.' ∉ s → get_string_before_dot s = s) := by
  constructor
  · intro hdot
    cases h : last_index_of s '.' with
    | none => exact absurd hdot ((last_index_of_none s '.').mp h)
    | some i =>
      obtain ⟨hlt, t, ht, hct⟩ := last_index_of_some s '.' i h
      refine ⟨t, ?_, hct⟩
      have hi : i % 2 ^ 32 = i := Nat.mod_eq_of_lt (lt_trans hlt hlen)
      simp only [get_string_before_dot, find_last_of, substr0, h, Option.getD_some, hi]
      exact ht
  · intro hdot
    have h := (last_index_of_none s '.').mpr hdot
    have hn : npos % 2 ^ 32 = 2 ^ 32 - 1 := by decide
    simp only [get_string_before_dot, find_last_of, substr0, h, Option.getD_none, hn]
    exact List.take_of_length_le (by omega)

theorem get_string_before_dot_replicate (n : Nat) :
    get_string_before_dot (List.replicate n 'a') = List.replicate (min 4294967295 n) 'a' := by
  have hdot : '.' ∉ List.replicate n 'a' := by
    intro h
    exact absurd (List.eq_of_mem_replicate h) (by decide)
  have h := (last_index_of_none _ '.').mpr hdot
  have hn : npos % 2 ^ 32 = 4294967295 := by decide
  simp only [get_string_before_dot, find_last_of, substr0, h, Option.getD_none, hn]
  exact List.take_replicate 'a' 4294967295 n

theorem last_index_of_append (l t : Str) (c : Char) (ht : c ∉ t) :
    last_index_of (l ++ c :: t) c = some l.length := by
  induction l with
  | nil =>
    simp only [List.nil_append, List.length_nil, last_index_of,
      (last_index_of_none t c).mpr ht, if_true]
  | cons a l ih =>
    show (match last_index_of (l ++ c :: t) c with
      | some i => some (i + 1)
      | none => if a = c then some 0 else none) = some (l.length + 1)
    rw [ih]

theorem get_string_before_dot_append (l t : Str) (ht : '.' ∉ t) :
    get_string_before_dot (l ++ '.' :: t) = (l ++ '.' :: t).take (l.length % 2 ^ 32) := by
  simp only [get_string_before_dot, find_last_of, substr0, last_index_of_append l t '.' ht,
    Option.getD_some]

/-- C10, the code at strings of more than `2 ^ 32` characters. With `2 ^ 32`
characters `a` before `.param` the index of the last dot is `2 ^ 32`, the
`unsigned` holds `0`, and the result is the empty string instead of the text
before the dot. With `2 ^ 32` characters `a` and no dot the `unsigned` holding
`npos` is `2 ^ 32 - 1`, so the last character is cut off and the string is not
returned unchanged. -/
theorem get_string_before_dot_long :
    get_string_before_dot (List.replicate 4294967296 'a' ++ '.' :: "param".toList) = [] ∧
    '.' ∉ List.replicate 4294967296 'a' ∧
    (get_string_before_dot (List.replicate 4294967296 'a')).length = 4294967295 ∧
    get_string_before_dot (List.replicate 4294967296 'a') ≠ List.replicate 4294967296 'a' := by
  have hlen : (get_string_before_dot (List.replicate 4294967296 'a')).length = 4294967295 := by
    rw [get_string_before_dot_replicate, List.length_replicate]
    exact min_eq_left (by decide)
  refine ⟨?_, ?_, hlen, ?_⟩
  · rw [get_string_before_dot_append _ _ (by decide), List.length_replicate]
    have h0 : 4294967296 % 2 ^ 32 = 0 := by decide
    rw [h0, List.take_zero]
  · intro h
    exact absurd (List.eq_of_mem_replicate h) (by decide)
  · intro h
    rw [h, List.length_replicate] at hlen
    exact absurd hlen (by decide)

/-! ### `LSDPP_parse_line` and `ingest_data` -/

theorem strip_trailing_self (s : Str) (hne : s ≠ []) (h : ∀ c ∈ s, is_blank c = false) :
    strip_trailing s = some s := by
  unfold strip_trailing
  cases hr : s.reverse with
  | nil =>
    have : s = [] := List.reverse_eq_nil_iff.mp hr
    exact absurd this hne
  | cons c r =>
    have hc : c ∈ s := by
      rw [← List.mem_reverse, hr]
      exact List.mem_cons_self _ _
    simp only [strip_rev, h c hc, Bool.false_eq_true, if_false, Option.map_some']
    rw [← hr, List.reverse_reverse]

theorem c_str_self (s : Str) (h : ∀ c ∈ s, c ≠ Char.ofNat 0) : c_str s = s := by
  unfold c_str
  rw [List.takeWhile_eq_self_iff]
  intro c hc
  simpa using h c hc

theorem char_step_plain (c : Char) (buff : Str) (w : Nat) (p v : Str) (hw : w < 2)
    (hc : plain_for w c) :
    char_step c ⟨buff, w, p, v⟩ = .ok ⟨buff ++ [c], w, p, v⟩ := by
  obtain ⟨h1, h2, h3, h4, h5⟩ := hc
  have hb : is_blank c = false := by simp [is_blank, h2, h3]
  have hcol : ¬ (c = ':' ∧ w = 0) := fun h => h5 h.2 h.1
  unfold char_step
  simp only [h1, h2, h3, h4, hb, hcol, false_and, if_false, Bool.false_eq_true, false_or,
    or_self, hw, if_true]

theorem parse_loop_plain (s rest buff : Str) (w : Nat) (p v : Str) (hw : w < 2)
    (hs : ∀ c ∈ s, plain_for w c) (hlen : buff.length + s.length ≤ 1024) :
    parse_loop (s ++ rest) ⟨buff, w, p, v⟩ = parse_loop rest ⟨buff ++ s, w, p, v⟩ := by
  induction s generalizing buff with
  | nil => simp
  | cons c s ih =>
    have hc := hs c (List.mem_cons_self _ _)
    have hlt : ¬ buff.length ≥ 1024 := by
      simp only [List.length_cons] at hlen
      omega
    rw [List.cons_append, parse_loop]
    simp only [hlt, if_false, char_step_plain c buff w p v hw hc, hc.2.2.2.1]
    rw [ih (buff ++ [c]) (fun d hd => hs d (List.mem_cons_of_mem _ hd))
      (by simp only [List.length_append, List.length_cons, List.length_nil] at hlen ⊢; omega)]
    simp

theorem parse_line_name_value (name num rest p v : Str)
    (hname : ∀ c ∈ name, plain_for 0 c ∧ c ≠ Char.ofNat 0) (hname_ne : name ≠ [])
    (hname_len : name.length ≤ 1023)
    (hnum : ∀ c ∈ num, plain_for 1 c ∧ c ≠ Char.ofNat 0) (hnum_ne : num ≠ [])
    (hnum_len : num.length ≤ 1023) :
    LSDPP_parse_line (name ++ ':' :: ' ' :: (num ++ '\n' :: rest)) p v =
      .ok (name, num, ⟨rest, true⟩) := by
  have hb1 : ∀ c ∈ name, is_blank c = false := by
    intro c hc
    obtain ⟨⟨_, h2, h3, _, _⟩, _⟩ := hname c hc
    simp [is_blank, h2, h3]
  have hb2 : ∀ c ∈ num, is_blank c = false := by
    intro c hc
    obtain ⟨⟨_, h2, h3, _, _⟩, _⟩ := hnum c hc
    simp [is_blank, h2, h3]
  unfold LSDPP_parse_line
  rw [parse_loop_plain name _ [] 0 p v (by decide) (fun c hc => (hname c hc).1)
    (by simp only [List.length_nil]; omega)]
  rw [List.nil_append, parse_loop]
  have hl1 : ¬ name.length ≥ 1024 := by omega
  have hstep1 : char_step ':' ⟨name, 0, p, v⟩ = .ok ⟨[], 1, name, v⟩ := by
    unfold char_step
    simp [is_blank, strip_trailing_self name hname_ne hb1,
      c_str_self name (fun c hc => (hname c hc).2)]
  simp only [hl1, if_false, hstep1]
  rw [if_neg (by decide), parse_loop]
  have hstep2 : char_step ' ' ⟨[], 1, name, v⟩ = .ok ⟨[], 1, name, v⟩ := by
    unfold char_step
    simp [is_blank]
  simp only [List.length_nil, ge_iff_le, Nat.reduceLeDiff, if_false, hstep2]
  rw [if_neg (by decide)]
  rw [parse_loop_plain num _ [] 1 name v (by decide) (fun c hc => (hnum c hc).1)
    (by simp only [List.length_nil]; omega)]
  rw [List.nil_append, parse_loop]
  have hl2 : ¬ num.length ≥ 1024 := by omega
  have hstep3 : char_step '\n' ⟨num, 1, name, v⟩ = .ok ⟨[], 2, name, num⟩ := by
    unfold char_step
    have hnb : ¬ num = [] := hnum_ne
    simp [is_blank, hnb, strip_trailing_self num hnum_ne hb2,
      c_str_self num (fun c hc => (hnum c hc).2)]
  simp only [hl2, if_false, hstep3, if_true]
  rfl

theorem name_chars_plain (name lowerKey : Str) (h : name.map Char.toLower = lowerKey)
    (hkey : ∀ d ∈ lowerKey, plain_for 0 d ∧ d ≠ Char.ofNat 0) :
    ∀ c ∈ name, plain_for 0 c ∧ c ≠ Char.ofNat 0 := by
  intro c hc
  have hmem : c.toLower ∈ lowerKey := by
    rw [← h]
    exact List.mem_map_of_mem _ hc
  obtain ⟨⟨h1, h2, h3, h4, h5⟩, h6⟩ := hkey _ hmem
  refine ⟨⟨?_, ?_, ?_, ?_, fun _ => ?_⟩, ?_⟩
  · intro e; apply h1; rw [e]; decide
  · intro e; apply h2; rw [e]; decide
  · intro e; apply h3; rw [e]; decide
  · intro e; apply h4; rw [e]; decide
  · intro e; apply h5 rfl; rw [e]; decide
  · intro e; apply h6; rw [e]; decide

theorem number_chars_plain (num : Str) (h : is_number_text num = true) :
    num ≠ [] ∧ ∀ c ∈ num, plain_for 1 c ∧ c ≠ Char.ofNat 0 := by
  unfold is_number_text at h
  simp only [Bool.and_eq_true, Bool.not_eq_true', List.isEmpty_eq_false, List.all_eq_true] at h
  refine ⟨by simpa using h.1, ?_⟩
  intro c hc
  have hs := h.2 c hc
  simp only [is_separator, Bool.or_eq_false_iff, beq_eq_false_iff_ne] at hs
  obtain ⟨⟨⟨⟨h1, h2⟩, h3⟩, h4⟩, h5⟩ := hs
  exact ⟨⟨h4, h1, h2, h3, fun h => absurd h (by decide)⟩, h5⟩

theorem ingest_pass_line {F : Type} (env : ParserEnv F) (lowerKey name num rest p v : Str)
    (st st' : ParserState F)
    (hmap : name.map Char.toLower = lowerKey)
    (hkey : ∀ d ∈ lowerKey, plain_for 0 d ∧ d ≠ Char.ofNat 0)
    (hkne : lowerKey ≠ []) (hklen : lowerKey.length ≤ 1023)
    (hknull : lowerKey ≠ NULL.map Char.toLower)
    (hnum : is_number_text num = true) (hnlen : num.length ≤ 1023)
    (hdisp : dispatch env lowerKey name num st = .ok st') :
    ingest_pass env ⟨⟨name ++ ':' :: ' ' :: (num ++ '\n' :: rest), true⟩, p, v, st⟩ =
      .ok ⟨⟨rest, true⟩, name, env.RemoveControlCharactersFromEndOfString num, st'⟩ := by
  have hname := name_chars_plain name lowerKey hmap hkey
  have hname_ne : name ≠ [] := by
    intro e
    rw [e] at hmap
    exact hkne hmap.symm
  have hname_len : name.length ≤ 1023 := by
    rw [← hmap, List.length_map] at hklen
    exact hklen
  have hnull : ¬ name = NULL := by
    intro e
    rw [e] at hmap
    exact hknull hmap.symm
  obtain ⟨hnum_ne, hnumc⟩ := number_chars_plain num hnum
  unfold ingest_pass
  simp only [parse_line_name_value name num rest p v hname hname_ne hname_len hnumc hnum_ne hnlen,
    hnull, if_false, hmap, hdisp]

theorem dispatch_segmentation_option {F : Type} (env : ParserEnv F) (key : String)
    (kind : ParamKind) (hopt : (key, kind) ∈ segmentation_options) (name num : Str)
    (st : ParserState F) :
    dispatch env (key.toList.map Char.toLower) name num st =
      .ok (store_option env st key.toList kind num) := by
  simp only [segmentation_options, List.mem_cons, Prod.mk.injEq, List.mem_singleton,
    List.not_mem_nil, or_false] at hopt
  rcases hopt with ⟨rfl, rfl⟩ | ⟨rfl, rfl⟩ | ⟨rfl, rfl⟩ | ⟨rfl, rfl⟩ | ⟨rfl, rfl⟩ | ⟨rfl, rfl⟩ |
    ⟨rfl, rfl⟩ <;> rfl

theorem segmentation_key_plain (key : String) (kind : ParamKind)
    (hopt : (key, kind) ∈ segmentation_options) :
    (∀ d ∈ key.toList.map Char.toLower, plain_for 0 d ∧ d ≠ Char.ofNat 0) ∧
    key.toList.map Char.toLower ≠ [] ∧ (key.toList.map Char.toLower).length ≤ 1023 ∧
    key.toList.map Char.toLower ≠ NULL.map Char.toLower := by
  simp only [segmentation_options, List.mem_cons, Prod.mk.injEq, List.mem_singleton,
    List.not_mem_nil, or_false] at hopt
  unfold plain_for
  rcases hopt with ⟨rfl, rfl⟩ | ⟨rfl, rfl⟩ | ⟨rfl, rfl⟩ | ⟨rfl, rfl⟩ | ⟨rfl, rfl⟩ | ⟨rfl, rfl⟩ |
    ⟨rfl, rfl⟩ <;> decide

theorem ingest_pass_end {F : Type} (env : ParserEnv F) (p v : Str) (st : ParserState F) :
    ingest_pass env ⟨⟨[], true⟩, p, v, st⟩ = .ok ⟨⟨[], false⟩, NULL, NULL, st⟩ := by
  simp [ingest_pass, LSDPP_parse_line, parse_loop, line_result]

theorem ingest_loop_one_line {F : Type} (env : ParserEnv F) (line p v p' v' : Str)
    (st st' : ParserState F) (n : Nat)
    (h : ingest_pass env ⟨⟨line, true⟩, p, v, st⟩ = .ok ⟨⟨[], true⟩, p', v', st'⟩) :
    ingest_loop env (n + 3) ⟨⟨line, true⟩, p, v, st⟩ = .ok st' := by
  simp only [ingest_loop, h, if_true, ingest_pass_end env p' v' st']
  simp

/-- C7 (as the code has it). Let `key` be one of the seven options with its
kind, `name` any spelling of it in upper and lower case, and `num` the text of a
number of at most 1023 characters. One pass of the loop of `ingest_data` over
the line `name: num` ended by a newline stores `atof` or `atoi` of the text
(control characters removed) under `key`, in `float_parameters` or
`int_parameters` by kind, changes no other data member and reports nothing;
`ingest_data` on a file made of that line returns these data members. -/
theorem recognized_segmentation_options {F : Type} (env : ParserEnv F) (key : String)
    (kind : ParamKind) (name num : Str)
    (hopt : (key, kind) ∈ segmentation_options)
    (hname : name.map Char.toLower = key.toList.map Char.toLower)
    (hnum : is_number_text num = true) (hlen : num.length ≤ 1023) :
    (∀ (rest p v : Str) (st : ParserState F),
      ingest_pass env ⟨⟨name ++ [':', ' '] ++ num ++ ['\n'] ++ rest, true⟩, p, v, st⟩ =
        .ok ⟨⟨rest, true⟩, name, env.RemoveControlCharactersFromEndOfString num,
          store_option env st key.toList kind num⟩) ∧
    (∀ st : ParserState F,
      ingest_data env (name ++ [':', ' '] ++ num ++ ['\n']) st =
        .ok (store_option env st key.toList kind num)) ∧
    (∀ st : ParserState F,
      (store_option env st key.toList kind num).unexpected = st.unexpected ∧
      match kind with
      | ParamKind.float_parameter =>
        (store_option env st key.toList kind num).float_parameters.find key.toList =
          some (env.atof (env.RemoveControlCharactersFromEndOfString num)) ∧
        (store_option env st key.toList kind num).int_parameters = st.int_parameters
      | ParamKind.int_parameter =>
        (store_option env st key.toList kind num).int_parameters.find key.toList =
          some (env.atoi (env.RemoveControlCharactersFromEndOfString num)) ∧
        (store_option env st key.toList kind num).float_parameters = st.float_parameters) := by
  obtain ⟨hk1, hk2, hk3, hk4⟩ := segmentation_key_plain key kind hopt
  have hpass : ∀ (rest p v : Str) (st : ParserState F),
      ingest_pass env ⟨⟨name ++ [':', ' '] ++ num ++ ['\n'] ++ rest, true⟩, p, v, st⟩ =
        .ok ⟨⟨rest, true⟩, name, env.RemoveControlCharactersFromEndOfString num,
          store_option env st key.toList kind num⟩ := by
    intro rest p v st
    have hshape : name ++ [':', ' '] ++ num ++ ['\n'] ++ rest =
        name ++ ':' :: ' ' :: (num ++ '\n' :: rest) := by simp
    rw [hshape]
    exact ingest_pass_line env _ name num rest p v st _ hname hk1 hk2 hk3 hk4 hnum hlen
      (dispatch_segmentation_option env key kind hopt name num st)
  refine ⟨hpass, ?_, ?_⟩
  · intro st
    have h := hpass [] [] [] st
    rw [List.append_nil] at h
    unfold ingest_data
    have hfuel : (name ++ [':', ' '] ++ num ++ ['\n']).length + 2 =
        (name ++ [':', ' '] ++ num).length + 3 := by
      simp only [List.length_append, List.length_cons, List.length_nil]
    rw [hfuel]
    exact ingest_loop_one_line env _ [] [] _ _ st _ _ h
  · intro st
    cases kind with
    | float_parameter =>
      exact ⟨rfl, by simp [store_option, StdMap.find_assign], rfl⟩
    | int_parameter =>
      exact ⟨rfl, by simp [store_option, StdMap.find_assign], rfl⟩

/-- C7, witness: the line `Sigma: 0.5`. -/
theorem recognized_segmentation_options_witness :
    ingest_data example_parser_env ("Sigma".toList ++ [':', ' '] ++ "0.5".toList ++ ['\n'])
        ParserState.init =
      .ok (store_option example_parser_env ParserState.init "sigma".toList
        ParamKind.float_parameter "0.5".toList) :=
  (recognized_segmentation_options example_parser_env "sigma" ParamKind.float_parameter
    "Sigma".toList "0.5".toList (by decide) (by decide) (by decide) (by decide)).2.1
    ParserState.init

set_option maxRecDepth 1000000 in
/-- C7, counterexample: a number of 1024 digits after `sigma: ` fills the line
buffer, and `LSDPP_parse_line` ends the program at line 126 instead of storing
the number. -/
theorem long_number_overruns_buffer :
    is_number_text (List.replicate 1024 '1') = true ∧
    ingest_data example_parser_env
        ("sigma".toList ++ [':', ' '] ++ List.replicate 1024 '1' ++ ['\n']) ParserState.init =
      .error Fault.buffer_overrun := by
  constructor <;> decide

/-! ### The partitioner of the spec -/

theorem consider_parent {S : Type} [Add S] [LT S] [DecidableRel (α := S) (· < ·)] [DecidableEq S]
    (cost : Nat → Nat → S) (tie : Nat → Nat → Nat → Bool) (minLen : Nat)
    (best : List (Option (S × Nat))) (j : Nat) (acc : Option (S × Nat)) (x : Nat) (hx : x < j)
    (hacc : ∀ s p, acc = some (s, p) → p < j ∧ minLen ≤ j - p ∧ ∃ e, best[p]? = some (some e))
    (s : S) (p : Nat) (h : consider cost tie minLen best j acc x = some (s, p)) :
    p < j ∧ minLen ≤ j - p ∧ ∃ e, best[p]? = some (some e) := by
  unfold consider at h
  by_cases hm : minLen ≤ j - x
  · rw [if_pos hm] at h
    cases hb : best[x]? with
    | none => rw [hb] at h; exact hacc s p h
    | some o =>
      cases o with
      | none => rw [hb] at h; exact hacc s p h
      | some e =>
        obtain ⟨sx, px⟩ := e
        rw [hb] at h
        simp only at h
        cases hacc' : acc with
        | none =>
          rw [hacc'] at h
          simp only [Option.some.injEq, Prod.mk.injEq] at h
          rw [← h.2]
          exact ⟨hx, hm, (sx, px), hb⟩
        | some ab =>
          obtain ⟨sb, ib⟩ := ab
          rw [hacc'] at h
          simp only at h
          split at h
          · simp only [Option.some.injEq, Prod.mk.injEq] at h
            rw [← h.2]
            exact ⟨hx, hm, (sx, px), hb⟩
          · simp only [Option.some.injEq, Prod.mk.injEq] at h
            rw [← h.2]
            exact hacc sb ib hacc'
  · rw [if_neg hm] at h
    exact hacc s p h

theorem consider_isSome {S : Type} [Add S] [LT S] [DecidableRel (α := S) (· < ·)] [DecidableEq S]
    (cost : Nat → Nat → S) (tie : Nat → Nat → Nat → Bool) (minLen : Nat)
    (best : List (Option (S × Nat))) (j : Nat) (acc : Option (S × Nat)) (x : Nat)
    (h : acc.isSome = true) : (consider cost tie minLen best j acc x).isSome = true := by
  obtain ⟨⟨sb, ib⟩, rfl⟩ := Option.isSome_iff_exists.mp h
  unfold consider
  split
  · split
    · simp only
      split <;> rfl
    · rfl
  · rfl

theorem foldl_consider_parent {S : Type} [Add S] [LT S] [DecidableRel (α := S) (· < ·)]
    [DecidableEq S] (cost : Nat → Nat → S) (tie : Nat → Nat → Nat → Bool) (minLen : Nat)
    (best : List (Option (S × Nat))) (j : Nat) (l : List Nat) (acc : Option (S × Nat))
    (hl : ∀ x ∈ l, x < j)
    (hacc : ∀ s p, acc = some (s, p) → p < j ∧ minLen ≤ j - p ∧ ∃ e, best[p]? = some (some e))
    (s : S) (p : Nat) (h : l.foldl (consider cost tie minLen best j) acc = some (s, p)) :
    p < j ∧ minLen ≤ j - p ∧ ∃ e, best[p]? = some (some e) := by
  induction l generalizing acc with
  | nil => exact hacc s p h
  | cons x l ih =>
    rw [List.foldl_cons] at h
    exact ih _ (fun y hy => hl y (List.mem_cons_of_mem _ hy))
      (fun s' p' h' => consider_parent cost tie minLen best j acc x
        (hl x (List.mem_cons_self _ _)) hacc s' p' h') h

theorem foldl_consider_isSome {S : Type} [Add S] [LT S] [DecidableRel (α := S) (· < ·)]
    [DecidableEq S] (cost : Nat → Nat → S) (tie : Nat → Nat → Nat → Bool) (minLen : Nat)
    (best : List (Option (S × Nat))) (j : Nat) (l : List Nat) (acc : Option (S × Nat))
    (h : acc.isSome = true) :
    (l.foldl (consider cost tie minLen best j) acc).isSome = true := by
  induction l generalizing acc with
  | nil => exact h
  | cons x l ih =>
    rw [List.foldl_cons]
    exact ih _ (consider_isSome cost tie minLen best j acc x h)

theorem best_entry_parent {S : Type} [Add S] [LT S] [DecidableRel (α := S) (· < ·)]
    [DecidableEq S] (cost : Nat → Nat → S) (tie : Nat → Nat → Nat → Bool) (minLen : Nat)
    (best : List (Option (S × Nat))) (j : Nat) (s : S) (p : Nat)
    (h : best_entry cost tie minLen best j = some (s, p)) :
    p < j ∧ minLen ≤ j - p ∧ ∃ e, best[p]? = some (some e) :=
  foldl_consider_parent cost tie minLen best j (List.range j) none
    (fun _ hx => List.mem_range.mp hx) (fun _ _ h' => absurd h' (by simp)) s p h

theorem best_entry_isSome {S : Type} [Add S] [LT S] [DecidableRel (α := S) (· < ·)]
    [DecidableEq S] (cost : Nat → Nat → S) (tie : Nat → Nat → Nat → Bool) (minLen : Nat)
    (best : List (Option (S × Nat))) (j : Nat) (e : S × Nat)
    (h0 : best[0]? = some (some e)) (hj : minLen ≤ j + 1) :
    (best_entry cost tie minLen best (j + 1)).isSome = true := by
  unfold best_entry
  rw [List.range_succ_eq_map, List.foldl_cons]
  apply foldl_consider_isSome
  unfold consider
  simp [hj, h0]

theorem dp_table_length {S : Type} [Zero S] [Add S] [LT S] [DecidableRel (α := S) (· < ·)]
    [DecidableEq S] (cost : Nat → Nat → S) (tie : Nat → Nat → Nat → Bool) (minLen n : Nat) :
    (dp_table cost tie minLen n).length = n + 1 := by
  induction n with
  | zero => rfl
  | succ n ih => simp [dp_table, ih]

theorem dp_table_succ_getElem? {S : Type} [Zero S] [Add S] [LT S]
    [DecidableRel (α := S) (· < ·)] [DecidableEq S] (cost : Nat → Nat → S)
    (tie : Nat → Nat → Nat → Bool) (minLen n j : Nat) (hj : j ≤ n) :
    (dp_table cost tie minLen (n + 1))[j]? = (dp_table cost tie minLen n)[j]? := by
  have hlen := dp_table_length cost tie minLen n
  show (dp_table cost tie minLen n ++ _)[j]? = _
  exact List.getElem?_append_left (by omega)

theorem dp_table_last {S : Type} [Zero S] [Add S] [LT S] [DecidableRel (α := S) (· < ·)]
    [DecidableEq S] (cost : Nat → Nat → S) (tie : Nat → Nat → Nat → Bool) (minLen n : Nat) :
    (dp_table cost tie minLen (n + 1))[n + 1]? =
      some (best_entry cost tie minLen (dp_table cost tie minLen n) (n + 1)) := by
  have hlen := dp_table_length cost tie minLen n
  show (dp_table cost tie minLen n ++ _)[n + 1]? = _
  rw [List.getElem?_append_right (by omega), hlen]
  simp

theorem dp_table_zero {S : Type} [Zero S] [Add S] [LT S] [DecidableRel (α := S) (· < ·)]
    [DecidableEq S] (cost : Nat → Nat → S) (tie : Nat → Nat → Nat → Bool) (minLen n : Nat) :
    (dp_table cost tie minLen n)[0]? = some (some (0, 0)) := by
  induction n with
  | zero => rfl
  | succ n ih => rw [dp_table_succ_getElem? cost tie minLen n 0 (Nat.zero_le _), ih]

theorem dp_table_inv {S : Type} [Zero S] [Add S] [LT S] [DecidableRel (α := S) (· < ·)]
    [DecidableEq S] (cost : Nat → Nat → S) (tie : Nat → Nat → Nat → Bool) (minLen n : Nat) :
    TableInv minLen (dp_table cost tie minLen n) := by
  induction n with
  | zero =>
    intro j s p hj h
    have hlen : (dp_table cost tie minLen 0).length ≤ j := by
      rw [dp_table_length]; omega
    rw [List.getElem?_eq_none hlen] at h
    exact absurd h (by simp)
  | succ n ih =>
    intro j s p hj h
    rcases Nat.lt_trichotomy j (n + 1) with hlt | heq | hgt
    · rw [dp_table_succ_getElem? cost tie minLen n j (by omega)] at h
      obtain ⟨h1, h2, e, h3⟩ := ih j s p hj h
      exact ⟨h1, h2, e, by rw [dp_table_succ_getElem? cost tie minLen n p (by omega)]; exact h3⟩
    · subst heq
      rw [dp_table_last, Option.some.injEq] at h
      obtain ⟨h1, h2, e, h3⟩ := best_entry_parent cost tie minLen _ (n + 1) s p h
      exact ⟨h1, h2, e, by rw [dp_table_succ_getElem? cost tie minLen n p (by omega)]; exact h3⟩
    · have hlen : (dp_table cost tie minLen (n + 1)).length ≤ j := by
        rw [dp_table_length]; omega
      rw [List.getElem?_eq_none hlen] at h
      exact absurd h (by simp)

theorem covers_append (l : List (Nat × Nat)) (a p j : Nat) (h : covers a p l) (hpj : p < j) :
    covers a j (l ++ [(p, j)]) := by
  induction l generalizing a with
  | nil =>
    have hap : a = p := h
    subst hap
    exact ⟨rfl, hpj, rfl⟩
  | cons seg rest ih =>
    obtain ⟨h1, h2, h3⟩ := h
    exact ⟨h1, h2, ih seg.2 h3⟩

theorem backtrack_covers {S : Type} (minLen : Nat) (best : List (Option (S × Nat)))
    (hinv : TableInv minLen best) (fuel j : Nat) (hfuel : j ≤ fuel)
    (hj : j = 0 ∨ ∃ e, best[j]? = some (some e)) :
    covers 0 j (backtrack best fuel j) ∧
      ∀ seg ∈ backtrack best fuel j, minLen ≤ seg.2 - seg.1 := by
  induction fuel generalizing j with
  | zero =>
    have hj0 : j = 0 := by omega
    subst hj0
    exact ⟨rfl, fun seg hseg => absurd hseg (List.not_mem_nil _)⟩
  | succ fuel ih =>
    by_cases hj0 : j = 0
    · subst hj0
      exact ⟨rfl, fun seg hseg => absurd hseg (List.not_mem_nil _)⟩
    · rcases hj with h0 | ⟨⟨s, p⟩, he⟩
      · exact absurd h0 hj0
      · obtain ⟨h1, h2, e, h3⟩ := hinv j s p hj0 he
        obtain ⟨ihc, ihl⟩ := ih p (by omega) (Or.inr ⟨e, h3⟩)
        have hbt : backtrack best (fuel + 1) j = backtrack best fuel p ++ [(p, j)] := by
          rw [backtrack, if_neg hj0, he]
        rw [hbt]
        refine ⟨covers_append _ 0 p j ihc h1, ?_⟩
        intro seg hseg
        rcases List.mem_append.mp hseg with hin | hin
        · exact ihl seg hin
        · rw [List.mem_singleton.mp hin]
          exact h2

/-- C8 (as the spec has it). On a profile of at least `min_segment_length`
nodes the partitioner returns a partition that is not degenerate, covers the
profile from node `0` to node `n` without gap, and has at least
`min_segment_length` nodes in every segment. On a shorter profile it returns
the single segment `[0, n)`, flagged degenerate. -/
theorem partition_segment_lengths {S : Type} [Zero S] [Add S] [LT S]
    [DecidableRel (α := S) (· < ·)] [DecidableEq S] (cost : Nat → Nat → S)
    (tie : Nat → Nat → Nat → Bool) (min_segment_length n : Nat) :
    (min_segment_length ≤ n →
      (partition cost tie min_segment_length n).degenerate = false ∧
      covers 0 n (partition cost tie min_segment_length n).segments ∧
      ∀ seg ∈ (partition cost tie min_segment_length n).segments,
        min_segment_length ≤ seg.2 - seg.1) ∧
    (n < min_segment_length →
      partition cost tie min_segment_length n = ⟨[(0, n)], true⟩) := by
  constructor
  · intro hle
    have hdef : ∃ e, (dp_table cost tie min_segment_length n)[n]? = some (some e) := by
      cases n with
      | zero => exact ⟨(0, 0), rfl⟩
      | succ k =>
        rw [dp_table_last]
        have := best_entry_isSome cost tie min_segment_length
          (dp_table cost tie min_segment_length k) k (0, 0)
          (dp_table_zero cost tie min_segment_length k) hle
        obtain ⟨e, he⟩ := Option.isSome_iff_exists.mp this
        exact ⟨e, by rw [he]⟩
    obtain ⟨e, he⟩ := hdef
    have hp : partition cost tie min_segment_length n =
        ⟨backtrack (dp_table cost tie min_segment_length n) n n, false⟩ := by
      unfold partition
      rw [if_neg (by omega), he]
    rw [hp]
    obtain ⟨hc, hl⟩ := backtrack_covers min_segment_length _
      (dp_table_inv cost tie min_segment_length n) n n (le_refl n) (Or.inr ⟨e, he⟩)
    exact ⟨rfl, hc, hl⟩
  · intro hlt
    unfold partition
    rw [if_pos hlt]

/-- C8, witness: a profile of 10 nodes with `min_segment_length = 3`. -/
theorem partition_segment_lengths_witness :
    (partition example_cost example_tie 3 10).degenerate = false ∧
    covers 0 10 (partition example_cost example_tie 3 10).segments ∧
    ∀ seg ∈ (partition example_cost example_tie 3 10).segments, 3 ≤ seg.2 - seg.1 :=
  (partition_segment_lengths example_cost example_tie 3 10).1 (by decide)

/-- C8, counterexample: a profile of 3 nodes with `min_segment_length = 5` is
returned as one segment of 3 nodes. -/
theorem short_profile_segment :
    partition example_cost example_tie 5 3 = ⟨[(0, 3)], true⟩ ∧
    ¬ ∀ seg ∈ (partition example_cost example_tie 5 3).segments, 5 ≤ seg.2 - seg.1 := by
  decide

/-! ### `check_pathname_for_slash` and `check_file_extensions_and_paths` -/

/-- C11, the code at three pathnames. The character compared with the slash
is the one before the last: `data/`, which ends with a slash, gets a second
one; `a/b`, which does not, is left without; and for a pathname of one
character `substr` throws `std::out_of_range`. -/
theorem check_pathname_for_slash_before_last :
    check_pathname_for_slash "data/".toList = .ok "data//".toList ∧
    check_pathname_for_slash "a/b".toList = .ok "a/b".toList ∧
    "a/b".toList.getLast? ≠ some '/' ∧
    check_pathname_for_slash "a".toList = .error Fault.out_of_range := by
  decide

theorem check_extensions_paths (d : DriverFiles) :
    (check_extensions d).pathname = d.pathname ∧
    (check_extensions d).write_path = d.write_path ∧
    (check_extensions d).read_path = d.read_path := by
  unfold check_extensions
  split_ifs <;> exact ⟨rfl, rfl, rfl⟩

theorem check_write_path_value (d : DriverFiles) :
    (check_write_path d).write_path =
      (if d.write_path = [] then (if d.read_path = [] then d.pathname else d.read_path)
       else d.write_path) ∧
    (check_write_path d).read_path = d.read_path ∧
    (check_write_path d).pathname = d.pathname := by
  unfold check_write_path
  by_cases hw : d.write_path = []
  · by_cases hr : d.read_path = []
    · simp [hw, hr]
    · simp [hw, hr]
  · have hl : ¬ d.write_path.length = 0 := fun h => hw (List.length_eq_zero.mp h)
    simp [hw, hl]

theorem check_write_fname_paths (d : DriverFiles) :
    (check_write_fname d).write_path = d.write_path ∧
    (check_write_fname d).read_path = d.read_path ∧
    (check_write_fname d).pathname = d.pathname := by
  unfold check_write_fname
  split_ifs <;> exact ⟨rfl, rfl, rfl⟩

theorem check_read_path_value (d : DriverFiles) :
    (check_read_path d).read_path = (if d.read_path = [] then d.write_path else d.read_path) ∧
    (check_read_path d).write_path = d.write_path := by
  unfold check_read_path
  by_cases hr : d.read_path = []
  · simp [hr]
  · have hl : ¬ d.read_path.length = 0 := fun h => hr (List.length_eq_zero.mp h)
    simp [hr, hl]

theorem check_read_fname_paths (d : DriverFiles) :
    (check_read_fname d).write_path = d.write_path ∧
    (check_read_fname d).read_path = d.read_path := by
  unfold check_read_fname
  split_ifs <;> exact ⟨rfl, rfl⟩

theorem check_paths_values (d : DriverFiles) :
    (check_file_extensions_and_paths d).write_path =
      (if d.write_path = [] then (if d.read_path = [] then d.pathname else d.read_path)
       else d.write_path) ∧
    (check_file_extensions_and_paths d).read_path =
      (if d.read_path = [] then
        (if d.write_path = [] then d.pathname else d.write_path)
       else d.read_path) := by
  unfold check_file_extensions_and_paths
  obtain ⟨e1, e2, e3⟩ := check_extensions_paths d
  obtain ⟨w1, w2, _⟩ := check_write_path_value (check_extensions d)
  obtain ⟨f1, f2, _⟩ := check_write_fname_paths (check_write_path (check_extensions d))
  obtain ⟨r1, r2⟩ := check_read_path_value
    (check_write_fname (check_write_path (check_extensions d)))
  obtain ⟨n1, n2⟩ := check_read_fname_paths
    (check_read_path (check_write_fname (check_write_path (check_extensions d))))
  rw [n1, n2, r1, r2, f1, f2, w1, w2, e1, e2, e3]
  refine ⟨rfl, ?_⟩
  by_cases hr : d.read_path = []
  · simp [hr]
  · simp [hr]

/-- C12 (as the code has it). When `write_path` is empty on entry to
`check_file_extensions_and_paths`, on exit it equals `read_path` if that was
not empty, and `pathname` if `read_path` was empty too; a `write_path` that is
not empty is left unchanged. -/
theorem default_write_path (d : DriverFiles) :
    (d.write_path = [] → d.read_path = [] →
      (check_file_extensions_and_paths d).write_path = d.pathname) ∧
    (d.write_path = [] → d.read_path ≠ [] →
      (check_file_extensions_and_paths d).write_path = d.read_path) ∧
    (d.write_path ≠ [] → (check_file_extensions_and_paths d).write_path = d.write_path) := by
  have h := (check_paths_values d).1
  refine ⟨fun hw hr => ?_, fun hw hr => ?_, fun hw => ?_⟩
  · rw [h, if_pos hw, if_pos hr]
  · rw [h, if_pos hw, if_neg hr]
  · rw [h, if_neg hw]

/-- C12, witness: with `write_path` empty and `read_path` equal to `in/` the
write path becomes `in/`. -/
theorem default_write_path_witness :
    (check_file_extensions_and_paths (example_files "" "in/")).write_path = "in/".toList :=
  (default_write_path (example_files "" "in/")).2.1 (by decide) (by decide)

/-- C12, counterexample: `write_path` is empty on entry and `read_path` is
`in/`; on exit `write_path` is `in/`, not the pathname `data/`. -/
theorem write_path_follows_read_path :
    (example_files "" "in/").write_path = [] ∧
    (example_files "" "in/").pathname = "data/".toList ∧
    (check_file_extensions_and_paths (example_files "" "in/")).write_path = "in/".toList ∧
    (check_file_extensions_and_paths (example_files "" "in/")).write_path ≠
      (example_files "" "in/").pathname := by
  decide

/-- C13 (as the code has it). When `read_path` is empty on entry to
`check_file_extensions_and_paths`, on exit it equals `write_path` if that was
not empty, and `pathname` if `write_path` was empty too; a `read_path` that is
not empty is left unchanged. -/
theorem default_read_path (d : DriverFiles) :
    (d.read_path = [] → d.write_path = [] →
      (check_file_extensions_and_paths d).read_path = d.pathname) ∧
    (d.read_path = [] → d.write_path ≠ [] →
      (check_file_extensions_and_paths d).read_path = d.write_path) ∧
    (d.read_path ≠ [] → (check_file_extensions_and_paths d).read_path = d.read_path) := by
  have h := (check_paths_values d).2
  refine ⟨fun hr hw => ?_, fun hr hw => ?_, fun hr => ?_⟩
  · rw [h, if_pos hr, if_pos hw]
  · rw [h, if_pos hr, if_neg hw]
  · rw [h, if_neg hr]

/-- C13, witness: with `read_path` empty and `write_path` equal to `out/` the
read path becomes `out/`. -/
theorem default_read_path_witness :
    (check_file_extensions_and_paths (example_files "out/" "")).read_path = "out/".toList :=
  (default_read_path (example_files "out/" "")).2.1 (by decide) (by decide)

/-- C13, counterexample: `read_path` is empty on entry and `write_path` is
`out/`; on exit `read_path` is `out/`, not the pathname `data/`. -/
theorem read_path_follows_write_path :
    (example_files "out/" "").read_path = [] ∧
    (example_files "out/" "").pathname = "data/".toList ∧
    (check_file_extensions_and_paths (example_files "out/" "")).read_path = "out/".toList ∧
    (check_file_extensions_and_paths (example_files "out/" "")).read_path ≠
      (example_files "out/" "").pathname := by
  decide

theorem check_extensions_values (d : DriverFiles) :
    (check_extensions d).dem_read_extension = (check_extensions d).dem_write_extension ∧
    ((check_extensions d).dem_read_extension = "asc".toList ∨
      (check_extensions d).dem_read_extension = "flt".toList) ∧
    (d.dem_read_extension ≠ "asc".toList → d.dem_read_extension ≠ "flt".toList →
      d.dem_write_extension ≠ "asc".toList → d.dem_write_extension ≠ "flt".toList →
      (check_extensions d).dem_read_extension = "flt".toList) := by
  unfold check_extensions
  by_cases hc1 : d.dem_read_extension ≠ "asc".toList ∧ d.dem_read_extension ≠ "flt".toList ∧
      d.dem_write_extension ≠ "asc".toList ∧ d.dem_write_extension ≠ "flt".toList
  · rw [if_pos hc1]
    exact ⟨rfl, Or.inr rfl, fun _ _ _ _ => rfl⟩
  · rw [if_neg hc1]
    by_cases hc2 : d.dem_read_extension ≠ "asc".toList ∧ d.dem_read_extension ≠ "flt".toList
    · rw [if_pos hc2]
      refine ⟨rfl, ?_, fun h1 h2 h3 h4 => absurd ⟨h1, h2, h3, h4⟩ hc1⟩
      show d.dem_write_extension = "asc".toList ∨ d.dem_write_extension = "flt".toList
      by_contra hcon
      exact hc1 ⟨hc2.1, hc2.2, fun h => hcon (Or.inl h), fun h => hcon (Or.inr h)⟩
    · rw [if_neg hc2]
      refine ⟨rfl, ?_, fun h1 h2 h3 h4 => absurd ⟨h1, h2, h3, h4⟩ hc1⟩
      show d.dem_read_extension = "asc".toList ∨ d.dem_read_extension = "flt".toList
      by_contra hcon
      exact hc2 ⟨fun h => hcon (Or.inl h), fun h => hcon (Or.inr h)⟩

theorem check_write_path_extensions (d : DriverFiles) :
    (check_write_path d).dem_read_extension = d.dem_read_extension ∧
    (check_write_path d).dem_write_extension = d.dem_write_extension := by
  unfold check_write_path
  by_cases hw : d.write_path.length = 0
  · rw [if_pos hw]
    by_cases hr : d.read_path.length ≠ 0
    · simp only [hr, ne_eq, not_false_eq_true, if_true, and_self]
    · simp only [hr, if_false, and_self]
  · rw [if_neg hw]
    exact ⟨rfl, rfl⟩

theorem check_write_fname_extensions (d : DriverFiles) :
    (check_write_fname d).dem_read_extension = d.dem_read_extension ∧
    (check_write_fname d).dem_write_extension = d.dem_write_extension := by
  unfold check_write_fname
  by_cases hw : d.write_fname.length = 0
  · rw [if_pos hw]
    by_cases hr : d.read_fname.length ≠ 0
    · simp only [hr, ne_eq, not_false_eq_true, if_true, and_self]
    · simp only [hr, if_false, and_self]
  · rw [if_neg hw]
    exact ⟨rfl, rfl⟩

theorem check_read_path_extensions (d : DriverFiles) :
    (check_read_path d).dem_read_extension = d.dem_read_extension ∧
    (check_read_path d).dem_write_extension = d.dem_write_extension := by
  unfold check_read_path
  split_ifs <;> exact ⟨rfl, rfl⟩

theorem check_read_fname_extensions (d : DriverFiles) :
    (check_read_fname d).dem_read_extension = d.dem_read_extension ∧
    (check_read_fname d).dem_write_extension = d.dem_write_extension := by
  unfold check_read_fname
  split_ifs <;> exact ⟨rfl, rfl⟩

theorem path_checks_keep_extensions (d : DriverFiles) :
    (check_read_fname (check_read_path (check_write_fname (check_write_path d)))).dem_read_extension
      = d.dem_read_extension ∧
    (check_read_fname (check_read_path (check_write_fname (check_write_path d)))).dem_write_extension
      = d.dem_write_extension := by
  obtain ⟨a1, a2⟩ := check_write_path_extensions d
  obtain ⟨b1, b2⟩ := check_write_fname_extensions (check_write_path d)
  obtain ⟨c1, c2⟩ := check_read_path_extensions (check_write_fname (check_write_path d))
  obtain ⟨d1, d2⟩ := check_read_fname_extensions
    (check_read_path (check_write_fname (check_write_path d)))
  exact ⟨by rw [d1, c1, b1, a1], by rw [d2, c2, b2, a2]⟩

/-- C14 (extension correspondence). After `check_file_extensions_and_paths`
the read and write extensions are equal, each is `asc` or `flt`, and when
neither was `asc` or `flt` on entry both are `flt`. -/
theorem extension_correspondence (d : DriverFiles) :
    (check_file_extensions_and_paths d).dem_read_extension =
      (check_file_extensions_and_paths d).dem_write_extension ∧
    ((check_file_extensions_and_paths d).dem_read_extension = "asc".toList ∨
      (check_file_extensions_and_paths d).dem_read_extension = "flt".toList) ∧
    ((check_file_extensions_and_paths d).dem_write_extension = "asc".toList ∨
      (check_file_extensions_and_paths d).dem_write_extension = "flt".toList) ∧
    (d.dem_read_extension ≠ "asc".toList → d.dem_read_extension ≠ "flt".toList →
      d.dem_write_extension ≠ "asc".toList → d.dem_write_extension ≠ "flt".toList →
      (check_file_extensions_and_paths d).dem_read_extension = "flt".toList ∧
      (check_file_extensions_and_paths d).dem_write_extension = "flt".toList) := by
  obtain ⟨k1, k2⟩ := path_checks_keep_extensions (check_extensions d)
  obtain ⟨v1, v2, v3⟩ := check_extensions_values d
  unfold check_file_extensions_and_paths
  rw [k1, k2]
  refine ⟨v1, v2, ?_, ?_⟩
  · rw [← v1]; exact v2
  · intro h1 h2 h3 h4
    exact ⟨v3 h1 h2 h3 h4, by rw [← v1]; exact v3 h1 h2 h3 h4⟩

/-- C14, witness: the extensions `tif` and `png` both become `flt`. -/
theorem extension_correspondence_witness :
    (check_file_extensions_and_paths
        ⟨[], "run.param".toList, "tif".toList, "png".toList, [], [], [], []⟩).dem_read_extension
      = "flt".toList ∧
    (check_file_extensions_and_paths
        ⟨[], "run.param".toList, "tif".toList, "png".toList, [], [], [], []⟩).dem_write_extension
      = "flt".toList :=
  (extension_correspondence
    ⟨[], "run.param".toList, "tif".toList, "png".toList, [], [], [], []⟩).2.2.2
    (by decide) (by decide) (by decide) (by decide)

/-! ### `set_float_parameters` and `set_int_parameters` -/

theorem set_parameters_empty {F : Type} (st : ParserState F) (float_default_map : StdMap Str F)
    (int_default_map : StdMap Str Int) :
    set_float_parameters st float_default_map = [] ∧
    set_int_parameters st int_default_map = [] :=
  ⟨rfl, rfl⟩

/-- C15, the code at a default map with the keys `A_0` and `sigma` when the
parameter file gave `sigma` the value 2 (and `skip` the value 3 against its
own default 1): both functions return the empty map, whose key set is not that
of the default map, where the comments describe the map with `A_0` at its default
and `sigma` at 2. -/
theorem set_parameters_returns_no_key :
    set_float_parameters
        { (ParserState.init : ParserState Int) with float_parameters := [("sigma".toList, 2)] }
        [("A_0".toList, 1000), ("sigma".toList, 1)] = [] ∧
    StdMap.keys (set_float_parameters
        { (ParserState.init : ParserState Int) with float_parameters := [("sigma".toList, 2)] }
        [("A_0".toList, 1000), ("sigma".toList, 1)]) ≠
      StdMap.keys ([("A_0".toList, 1000), ("sigma".toList, 1)] : StdMap Str Int) ∧
    resolved_parameters [("sigma".toList, (2 : Int))] [("A_0".toList, 1000), ("sigma".toList, 1)] =
      [("A_0".toList, 1000), ("sigma".toList, 2)] ∧
    set_int_parameters
        { (ParserState.init : ParserState Int) with int_parameters := [("skip".toList, 3)] }
        [("skip".toList, 1)] = [] ∧
    StdMap.keys (set_int_parameters
        { (ParserState.init : ParserState Int) with int_parameters := [("skip".toList, 3)] }
        [("skip".toList, 1)]) ≠ StdMap.keys ([("skip".toList, 1)] : StdMap Str Int) := by
  decide

/-! ### `run_analyses` -/

/-- C16, the code at two states without rasters. With neither switch in
`raster_switches` the base raster is read and the fill raster computed, and
`vector_of_LSDRasters` and `raster_indices` each get two entries. With
`need_base_raster` and `need_fill` both set to `true` nothing is read or
computed and the state is unchanged. -/
theorem run_analyses_tests_absence :
    run_analyses example_raster_env (example_rasters []) =
      some { example_rasters [] with
        raster_indices := [("base_raster".toList, 0), ("fill".toList, 1)]
        vector_of_LSDRasters := ["data/dem.flt".toList, "data/dem.flt_fill".toList]
        min_slope_for_fill := 1
        events := [RasterEvent.read_base, RasterEvent.compute_fill] } ∧
    run_analyses example_raster_env
        (example_rasters [("need_base_raster".toList, true), ("need_fill".toList, true)]) =
      some (example_rasters [("need_base_raster".toList, true), ("need_fill".toList, true)]) := by
  decide

theorem run_analyses_switches_present {R F : Type} (env : RasterEnv R F) (d : DriverRasters R F)
    (b1 b2 : Bool) (h1 : d.raster_switches.find "need_base_raster".toList = some b1)
    (h2 : d.raster_switches.find "need_fill".toList = some b2) :
    run_analyses env d = some d := by
  simp only [run_analyses, h1, h2, Option.isNone_some, Bool.false_eq_true, if_false]

/-! ### `Calculate_r` -/

/-- C17 (as the code has it). For every interior cell `(i, j)` whose
soil-density value is not `NoDataValue`, the output cell equals the water
density `rhoW` divided by the soil density at `(i, j)`; every other cell is
`NoDataValue`. -/
theorem Calculate_r_interior {F : Type} [Div F] [DecidableEq F] (NRows NCols : Int)
    (NoDataValue : F) (RasterData : Int → Int → F) (rhoW : F) (i j : Int) :
    (1 ≤ i → i < NRows - 1 → 1 ≤ j → j < NCols - 1 → RasterData i j ≠ NoDataValue →
      Calculate_r NRows NCols NoDataValue RasterData rhoW i j = rhoW / RasterData i j) ∧
    (¬ (1 ≤ i ∧ i < NRows - 1 ∧ 1 ≤ j ∧ j < NCols - 1) ∨ RasterData i j = NoDataValue →
      Calculate_r NRows NCols NoDataValue RasterData rhoW i j = NoDataValue) := by
  constructor
  · intro h1 h2 h3 h4 h5
    unfold Calculate_r
    rw [if_pos ⟨h1, h2, h3, h4⟩, if_pos h5]
  · intro h
    unfold Calculate_r
    rcases h with h | h
    · rw [if_neg h]
    · split_ifs <;> first | rfl | (rename_i hne; exact absurd h hne)

/-- C17, witness: the centre of a 3 by 3 raster of soil density 2000 with
water density 1000. -/
theorem Calculate_r_interior_witness :
    Calculate_r 3 3 (-9999 : ℚ) (fun _ _ => 2000) 1000 1 1 = (1000 : ℚ) / 2000 :=
  (Calculate_r_interior 3 3 (-9999 : ℚ) (fun _ _ => 2000) 1000 1 1).1
    (by decide) (by decide) (by decide) (by decide) (by decide)

/-- C17, counterexample: at the centre of a 3 by 3 raster of soil density 2000
with water density 1000 the output is 1/2, not the soil density divided by
the water density, which is 2. -/
theorem Calculate_r_not_soil_over_water :
    Calculate_r 3 3 (-9999 : ℚ) (fun _ _ => 2000) 1000 1 1 = 1 / 2 ∧
    Calculate_r 3 3 (-9999 : ℚ) (fun _ _ => 2000) 1000 1 1 ≠ (2000 : ℚ) / 1000 := by
  have h : Calculate_r 3 3 (-9999 : ℚ) (fun _ _ => 2000) 1000 1 1 = (1000 : ℚ) / 2000 := by
    unfold Calculate_r
    rw [if_pos (by decide), if_pos (by decide)]
  rw [h]
  constructor <;> norm_num

/-! ### `child_drainage_density` -/

theorem child_main_line {F : Type} (show_float : F → Str) (show_int : Int → Str)
    (mean_cht drainage_density : F) (uprate : Int) :
    child_drainage_density_main show_float show_int 3 true mean_cht drainage_density uprate =
      some (show_float mean_cht ++ [' '] ++ show_float drainage_density ++ [' '] ++
        show_int uprate) := by
  simp [child_drainage_density_main, child_output_line]

/-- C18, the code at a run with mean hilltop curvature -3, drainage density 5
and `uprate` 7 (numbers written in decimal): the line is `-3 5 7`, the mean
hilltop curvature first, the drainage density second and `uprate` third; for no
basin area is it the line `5 -3 area` of the header comment. -/
theorem child_output_order :
    child_drainage_density_main (fun (x : Int) => (toString x).toList)
        (fun x => (toString x).toList) 3 true (-3) 5 7 = some "-3 5 7".toList ∧
    ∀ area : Str,
      child_drainage_density_main (fun (x : Int) => (toString x).toList)
        (fun x => (toString x).toList) 3 true (-3) 5 7 ≠
      some ((toString (5 : Int)).toList ++ [' '] ++ (toString (-3 : Int)).toList ++ [' '] ++ area)
    := by
  have h : child_drainage_density_main (fun (x : Int) => (toString x).toList)
      (fun x => (toString x).toList) 3 true (-3) 5 7 = some "-3 5 7".toList := by decide
  refine ⟨h, ?_⟩
  intro area hcon
  rw [h] at hcon
  have h5 : (toString (5 : Int)).toList = ['5'] := by decide
  have hl : "-3 5 7".toList = ['-', '3', ' ', '5', ' ', '7'] := by decide
  rw [h5, hl] at hcon
  have e := Option.some.inj hcon
  simp only [List.cons_append, List.cons.injEq] at e
  exact absurd e.1 (by decide)

end LSDTT
